import Mathlib

/-!
Shallow embedding of the ISEL-to-G-code conversion engine
(`isel_to_gcode_gui.py`): the coordinate parser, the machine-state
tracker, the two arc strategies (`linearize_arc` and `arc_to_g2g3`),
the time estimator and the conversion orchestrator (`convert_file`).
Machine floats are modelled by exact reals; the textual command layer
is modelled over lists of characters with exact rational values.
-/

namespace IselGcode

/-! ## Machine constants (source lines 16-20) -/

/-- `SCALE = 1000.0` : ISEL units per millimeter. -/
def SCALE : ℚ := 1000

/-- `VEL_RATIO = 16.6667` : ISEL VEL units per (mm/min). -/
noncomputable def velRatio : ℝ := 16.6667

/-- `SAFE_Z = 4.0` : retract height before the first rapid move. -/
noncomputable def SAFE_Z : ℝ := 4.0

/-- `ARC_RESOLUTION = 0.05` : chord length when linearising arcs. -/
noncomputable def ARC_RESOLUTION : ℝ := 0.05

/-- `DEFAULT_FEED = 1000.0` : fallback feed if no VEL before first move. -/
noncomputable def DEFAULT_FEED : ℝ := 1000.0

/-! ## Text layer: the regex searches of the source, over `List Char` -/

/-- Value of a nonempty digit string, as in `float(m.group(1))`. -/
def digitsToNat (ds : List Char) : ℕ :=
  ds.foldl (fun a c => 10 * a + (c.toNat - 48)) 0

/-- Parse an unsigned decimal `\d+(?:\.\d+)?` at the head of the input,
greedily, returning its exact value; `none` when no digit is present.
Mirrors the numeric part of the source's coordinate regex. -/
def parseUDec (cs : List Char) : Option ℚ :=
  let ds := cs.takeWhile Char.isDigit
  let rest := cs.dropWhile Char.isDigit
  if ds.isEmpty then none
  else
    let ip : ℚ := (digitsToNat ds : ℚ)
    match rest with
    | '.' :: rest2 =>
        let fs := rest2.takeWhile Char.isDigit
        if fs.isEmpty then some ip
        else some (ip + (digitsToNat fs : ℚ) / (10 ^ fs.length : ℚ))
    | _ => some ip

/-- Parse a signed decimal `-?\d+(?:\.\d+)?` at the head of the input.
A lone `-` with no following digit fails, as the regex does. -/
def parseSDec : List Char → Option ℚ
  | '-' :: rest => (parseUDec rest).map (fun v => -v)
  | cs => parseUDec cs

/-- `re.search(axis + "(-?\d+(?:\.\d+)?)", text)` : scan left to right
for the first occurrence of the axis letter followed by a signed number
and return that number (source `parse_coord`, line 70). -/
def searchAxis (axis : Char) : List Char → Option ℚ
  | [] => none
  | c :: rest =>
      if c = axis then
        match parseSDec rest with
        | some v => some v
        | none => searchAxis axis rest
      else searchAxis axis rest

/-- `re.search(r"VEL\s*(\d+(?:\.\d+)?)", line)` (source line 306). -/
def searchVEL : List Char → Option ℚ
  | [] => none
  | c :: rest =>
      if c = 'V' ∧ rest.take 2 = ['E', 'L'] then
        match parseUDec ((rest.drop 2).dropWhile Char.isWhitespace) with
        | some v => some v
        | none => searchVEL rest
      else searchVEL rest

/-- `re.search(r"RPM(\d+)", line)` (source line 255). -/
def searchRPM : List Char → Option ℕ
  | [] => none
  | c :: rest =>
      if c = 'R' ∧ rest.take 2 = ['P', 'M'] then
        match (rest.drop 2).takeWhile Char.isDigit with
        | [] => searchRPM rest
        | ds => some (digitsToNat ds)
      else searchRPM rest

/-- `parse_coord` (source lines 62-73): extract axis values from an ISEL
command string, dividing by `SCALE`; axes whose token is absent or
malformed are missing from the result. -/
def parse_coord (text : List Char) (axes : List Char) : Char → Option ℚ :=
  fun a =>
    if a ∈ axes then (searchAxis a text).map (fun v => v / SCALE) else none

/-- `line.strip()` : drop whitespace at both ends. -/
def strip (cs : List Char) : List Char :=
  ((cs.dropWhile Char.isWhitespace).reverse.dropWhile Char.isWhitespace).reverse

/-- `line.startswith(kw)` over character lists. -/
def begins : List Char → List Char → Bool
  | [], _ => true
  | _ :: _, [] => false
  | a :: as, b :: bs => a = b && begins as bs

/-- Keyword `SPINDLE CW`. -/
def kwSPINDLE : List Char := ['S', 'P', 'I', 'N', 'D', 'L', 'E', ' ', 'C', 'W']
/-- Keyword `FASTABS`. -/
def kwFASTABS : List Char := ['F', 'A', 'S', 'T', 'A', 'B', 'S']
/-- Keyword `MOVEABS`. -/
def kwMOVEABS : List Char := ['M', 'O', 'V', 'E', 'A', 'B', 'S']
/-- Keyword `VEL`. -/
def kwVEL : List Char := ['V', 'E', 'L']
/-- Keyword `CWABS`. -/
def kwCWABS : List Char := ['C', 'W', 'A', 'B', 'S']
/-- Keyword `CCWABS`. -/
def kwCCWABS : List Char := ['C', 'C', 'W', 'A', 'B', 'S']

/-! ## Geometry layer -/

/-- An absolute machine position (the dict `{"X": _, "Y": _, "Z": _}`). -/
@[ext]
structure Pos where
  X : ℝ
  Y : ℝ
  Z : ℝ

/-- An arc center (the dict built at source lines 330-333, X/Y only). -/
@[ext]
structure Center where
  X : ℝ
  Y : ℝ

/-- `math.hypot x y`. -/
noncomputable def hypot (x y : ℝ) : ℝ := Real.sqrt (x ^ 2 + y ^ 2)

/-- `math.atan2 y x`, the angle of the point `(x, y)` in `(-π, π]`. -/
noncomputable def atan2 (y x : ℝ) : ℝ := Complex.arg ⟨x, y⟩

/-- `move_distance` (source lines 55-60): Euclidean 3-D distance. -/
noncomputable def move_distance (p1 p2 : Pos) : ℝ :=
  Real.sqrt ((p2.X - p1.X) ^ 2 + (p2.Y - p1.Y) ^ 2 + (p2.Z - p1.Z) ^ 2)

/-- The time contribution `if current_feed: total += d / current_feed`
(Python truthiness: `None` and `0.0` contribute nothing). -/
noncomputable def tAdd (feed : Option ℝ) (d : ℝ) : ℝ :=
  match feed with
  | none => 0
  | some f => if f = 0 then 0 else d / f

/-- Radius from start to center, the authoritative radius
(source lines 103, 150). -/
noncomputable def arcRadius (start : Pos) (center : Center) : ℝ :=
  hypot (start.X - center.X) (start.Y - center.Y)

/-- Start angle `a0` (source lines 106, 151). -/
noncomputable def arcA0 (start : Pos) (center : Center) : ℝ :=
  atan2 (start.Y - center.Y) (start.X - center.X)

/-- Raw end angle `a1` before wrap-around adjustment
(source lines 107, 152). -/
noncomputable def arcA1raw (endP : Pos) (center : Center) : ℝ :=
  atan2 (endP.Y - center.Y) (endP.X - center.X)

/-- End angle `a1` after the direction-dependent wrap-around adjustment
(source lines 109-114, 154-159). -/
noncomputable def arcA1 (start endP : Pos) (center : Center) (cw : Bool) : ℝ :=
  let a0 := arcA0 start center
  let a1 := arcA1raw endP center
  if cw then (if a0 ≤ a1 then a1 - 2 * Real.pi else a1)
  else (if a1 ≤ a0 then a1 + 2 * Real.pi else a1)

/-- `arc_len = abs(a1 - a0) * r` (source lines 116, 161). -/
noncomputable def arcLen (start endP : Pos) (center : Center) (cw : Bool) : ℝ :=
  |arcA1 start endP center cw - arcA0 start center| * arcRadius start center

/-- `steps = max(1, int(arc_len / ARC_RESOLUTION))` (source line 162). -/
noncomputable def arcSteps (start endP : Pos) (center : Center) (cw : Bool) : ℕ :=
  max 1 (Int.toNat ⌊arcLen start endP center cw / ARC_RESOLUTION⌋)

/-- The target of loop step `i` of `linearize_arc` (source lines 168-174):
the point at angle `a0 + da * i`, holding Z at the start Z. -/
noncomputable def arcTarget (start endP : Pos) (center : Center) (cw : Bool)
    (i : ℕ) : Pos :=
  let r := arcRadius start center
  let a0 := arcA0 start center
  let da := (arcA1 start endP center cw - a0) / (arcSteps start endP center cw : ℝ)
  ⟨center.X + r * Real.cos (a0 + da * i),
   center.Y + r * Real.sin (a0 + da * i), start.Z⟩

/-- The running `pos` of `linearize_arc` after `i` loop steps:
`start` before the loop, then the step targets. -/
noncomputable def arcP (start endP : Pos) (center : Center) (cw : Bool) :
    ℕ → Pos
  | 0 => start
  | i + 1 => arcTarget start endP center cw (i + 1)

/-! ## Emitted lines -/

/-- One axis letter of a motion word. -/
inductive Axis
  | X
  | Y
  | Z
deriving DecidableEq, Repr

/-- One emitted output line, one constructor per `emit` call site:
the unnumbered header lines, `S.. M03`, the startup-retraction `G0 Z..`,
a `G0`/`G1` move with its axis words, an `F..` feed line, a linearised
arc segment `G1 X.. Y.. Z..`, a `G2`/`G3` directive
`X.. Y.. I.. J..`, and the `M05`/`M30` trailer. -/
inductive GLine
  | hdrG21
  | hdrG17
  | hdrG90
  | spindle (n : ℕ) (rpm : ℕ)
  | retract (n : ℕ) (z : ℝ)
  | move (n : ℕ) (rapid : Bool) (words : List (Axis × ℝ))
  | feedRate (n : ℕ) (f : ℝ)
  | arcSeg (n : ℕ) (x y z : ℝ)
  | arcDir (n : ℕ) (cw : Bool) (x y i j : ℝ)
  | m05 (n : ℕ)
  | m30 (n : ℕ)

/-- One message sent to the logging callback, one constructor per
`log` call site. -/
inductive LogMsg
  | spindleSet (rpm : ℕ)
  | warnRPM
  | feedSet (f : ℝ)
  | warnVEL
  | warnDefaultFeed
  | lineError

/-- Result of one arc handler call: the position handed back to the
tracker, the emitted lines, the time added, the next line number. -/
structure ArcRes where
  pos : Pos
  lines : List GLine
  timeAdd : ℝ
  lineNo : ℕ

/-- `arc_to_g2g3` (source lines 77-139): emit one G2/G3 line with I/J
center offsets and the end point recomputed onto the circle of the
start radius. -/
noncomputable def arc_to_g2g3 (feed : Option ℝ) (lineNo : ℕ)
    (start endP : Pos) (center : Center) (cw : Bool) : ArcRes :=
  let r := arcRadius start center
  let a1 := arcA1 start endP center cw
  let end_x := center.X + r * Real.cos a1
  let end_y := center.Y + r * Real.sin a1
  { pos := ⟨end_x, end_y, endP.Z⟩
    lines := [GLine.arcDir lineNo cw end_x end_y
                (center.X - start.X) (center.Y - start.Y)]
    timeAdd := tAdd feed (arcLen start endP center cw)
    lineNo := lineNo + 1 }

/-- `linearize_arc` (source lines 143-195): emit one `G1` chord segment
per angular step, then a corrective segment onto the programmed end
point when the loop end differs from it by more than 0.001 mm
in X or Y. -/
noncomputable def linearize_arc (feed : Option ℝ) (lineNo : ℕ)
    (start endP : Pos) (center : Center) (cw : Bool) : ArcRes :=
  let steps := arcSteps start endP center cw
  let lines := (List.range steps).map (fun k =>
    let t := arcP start endP center cw (k + 1)
    GLine.arcSeg (lineNo + k) t.X t.Y t.Z)
  let loopTime := ∑ k in Finset.range steps,
    tAdd feed (move_distance (arcP start endP center cw k)
      (arcP start endP center cw (k + 1)))
  let p := arcP start endP center cw steps
  if 0.001 < |endP.X - p.X| ∨ 0.001 < |endP.Y - p.Y| then
    { pos := endP
      lines := lines ++ [GLine.arcSeg (lineNo + steps) endP.X endP.Y endP.Z]
      timeAdd := loopTime + tAdd feed (move_distance p endP)
      lineNo := lineNo + steps + 1 }
  else
    { pos := p
      lines := lines
      timeAdd := loopTime
      lineNo := lineNo + steps }

/-! ## The conversion orchestrator -/

/-- The shared mutable locals of `convert_file` (source lines 41-45). -/
structure MState where
  feed : Option ℝ
  pos : Pos
  lineNo : ℕ
  startDone : Bool
  time : ℝ

/-- The initial machine state of a run. -/
noncomputable def initState : MState :=
  { feed := none
    pos := ⟨0.0, 0.0, 0.0⟩
    lineNo := 1
    startDone := false
    time := 0.0 }

/-- An optional parsed coordinate, in millimeters, as a real. -/
noncomputable def qToR (o : Option ℚ) (d : ℝ) : ℝ :=
  match o with
  | none => d
  | some q => (q : ℝ)

/-- `target = last_pos.copy(); target.update(c)` (source lines 273-274,
286-287, 327-328): unspecified axes retain their previous value. -/
noncomputable def applyCoords (p : Pos) (c : Char → Option ℚ) : Pos :=
  ⟨qToR (c 'X') p.X, qToR (c 'Y') p.Y, qToR (c 'Z') p.Z⟩

/-- The axis words appended to a `G0`/`G1` command, in X, Y, Z order,
only for axes present in the parsed coordinates (source lines 277-279,
295-297). -/
noncomputable def axisWords (c : Char → Option ℚ) (t : Pos) :
    List (Axis × ℝ) :=
  (if (c 'X').isSome then [(Axis.X, t.X)] else []) ++
  (if (c 'Y').isSome then [(Axis.Y, t.Y)] else []) ++
  (if (c 'Z').isSome then [(Axis.Z, t.Z)] else [])

/-- Result of processing one input line: the new machine state, the
emitted output lines and the logged messages, in order. -/
structure StepRes where
  state : MState
  out : List GLine
  logs : List LogMsg

/-- `handle_arc = arc_to_g2g3 if use_arc_commands else linearize_arc`
(source line 199). -/
noncomputable def handle_arc (useArc : Bool) (feed : Option ℝ) (lineNo : ℕ)
    (start endP : Pos) (center : Center) (cw : Bool) : ArcRes :=
  if useArc then arc_to_g2g3 feed lineNo start endP center cw
  else linearize_arc feed lineNo start endP center cw

/-- Processing of one stripped, non-blank, non-comment input line:
the `elif` dispatch chain of `convert_file` (source lines 252-343). -/
noncomputable def step (useArc : Bool) (s : MState) (line : List Char) :
    StepRes :=
  if begins kwSPINDLE line then
    match searchRPM line with
    | some rpm =>
        { state := { s with lineNo := s.lineNo + 1 }
          out := [GLine.spindle s.lineNo rpm]
          logs := [LogMsg.spindleSet rpm] }
    | none => { state := s, out := [], logs := [LogMsg.warnRPM] }
  else if begins kwFASTABS line then
    let c := parse_coord line ['X', 'Y', 'Z']
    let s1 : MState × List GLine :=
      if ¬ s.startDone then
        if s.pos.Z < SAFE_Z then
          ({ s with
              pos := { s.pos with Z := SAFE_Z }
              lineNo := s.lineNo + 1
              startDone := true },
           [GLine.retract s.lineNo SAFE_Z])
        else ({ s with startDone := true }, [])
      else (s, [])
    let target := applyCoords s1.1.pos c
    { state := { s1.1 with pos := target, lineNo := s1.1.lineNo + 1 }
      out := s1.2 ++ [GLine.move s1.1.lineNo true (axisWords c target)]
      logs := [] }
  else if begins kwMOVEABS line then
    let c := parse_coord line ['X', 'Y', 'Z']
    let target := applyCoords s.pos c
    let fp : ℝ × List GLine × List LogMsg × ℕ :=
      match s.feed with
      | none => (DEFAULT_FEED, [GLine.feedRate s.lineNo DEFAULT_FEED],
                 [LogMsg.warnDefaultFeed], s.lineNo + 1)
      | some f => (f, [], [], s.lineNo)
    { state := { s with
        feed := some fp.1
        pos := target
        lineNo := fp.2.2.2 + 1
        time := s.time + tAdd (some fp.1) (move_distance s.pos target) }
      out := fp.2.1 ++ [GLine.move fp.2.2.2 false (axisWords c target)]
      logs := fp.2.2.1 }
  else if begins kwVEL line then
    match searchVEL line with
    | some vel =>
        let f := (vel : ℝ) / velRatio
        { state := { s with feed := some f, lineNo := s.lineNo + 1 }
          out := [GLine.feedRate s.lineNo f]
          logs := [LogMsg.feedSet f] }
    | none => { state := s, out := [], logs := [LogMsg.warnVEL] }
  else if begins kwCWABS line ∨ begins kwCCWABS line then
    let cw := begins kwCWABS line
    let fp : ℝ × List GLine × List LogMsg × ℕ :=
      match s.feed with
      | none => (DEFAULT_FEED, [GLine.feedRate s.lineNo DEFAULT_FEED],
                 [LogMsg.warnDefaultFeed], s.lineNo + 1)
      | some f => (f, [], [], s.lineNo)
    let c := parse_coord line ['X', 'Y', 'Z']
    let ij := parse_coord line ['I', 'J']
    let endP := applyCoords s.pos c
    let center : Center :=
      ⟨s.pos.X + qToR (ij 'I') 0.0, s.pos.Y + qToR (ij 'J') 0.0⟩
    let res := handle_arc useArc (some fp.1) fp.2.2.2 s.pos endP center cw
    { state := { s with
        feed := some fp.1
        pos := res.pos
        lineNo := res.lineNo
        time := s.time + res.timeAdd }
      out := fp.2.1 ++ res.lines
      logs := fp.2.2.1 }
  else
    { state := s, out := [], logs := [] }

/-- The main loop of `convert_file` (source lines 237-338): strip each
raw line, skip blanks and comments, and process the rest in order. -/
noncomputable def runLines (useArc : Bool) :
    MState → List (List Char) → StepRes
  | s, [] => { state := s, out := [], logs := [] }
  | s, l :: ls =>
      let l2 := strip l
      if l2.isEmpty ∨ l2.head? = some ';' then runLines useArc s ls
      else
        let r1 := step useArc s l2
        let r2 := runLines useArc r1.state ls
        { state := r2.state, out := r1.out ++ r2.out, logs := r1.logs ++ r2.logs }

/-- `convert_file` (source lines 31-354), as a function from the raw
input lines to the final state and full output: the fixed `G21 G17 G90`
preamble, the converted body, and the numbered `M05`/`M30` trailer.
The returned estimated time is the final state's `time`. -/
noncomputable def convert_file (useArc : Bool) (input : List (List Char)) :
    StepRes :=
  let r := runLines useArc initState input
  { state := { r.state with lineNo := r.state.lineNo + 2 }
    out := GLine.hdrG21 :: GLine.hdrG17 :: GLine.hdrG90 :: r.out ++
      [GLine.m05 r.state.lineNo, GLine.m30 (r.state.lineNo + 1)]
    logs := r.logs }

/-! ## Basic lemmas -/

theorem begins_cons_elim {a : Char} {as l : List Char}
    (h : begins (a :: as) l = true) :
    ∃ cs, l = a :: cs ∧ begins as cs = true := by
  cases l with
  | nil => simp [begins] at h
  | cons b bs =>
      simp only [begins, Bool.and_eq_true, decide_eq_true_eq] at h
      exact ⟨bs, by rw [h.1], h.2⟩

theorem tAdd_some (f d : ℝ) : tAdd (some f) d = d / f := by
  unfold tAdd
  by_cases hf : f = 0
  · simp [hf]
  · simp [hf]

theorem tAdd_zero_feed (d : ℝ) : tAdd (some 0) d = 0 := by
  simp [tAdd]

theorem move_distance_nonneg (p q : Pos) : 0 ≤ move_distance p q :=
  Real.sqrt_nonneg _

theorem arcRadius_nonneg (start : Pos) (center : Center) :
    0 ≤ arcRadius start center :=
  Real.sqrt_nonneg _

theorem arcLen_nonneg (start endP : Pos) (center : Center) (cw : Bool) :
    0 ≤ arcLen start endP center cw :=
  mul_nonneg (abs_nonneg _) (arcRadius_nonneg _ _)

theorem arcSteps_pos (start endP : Pos) (center : Center) (cw : Bool) :
    1 ≤ arcSteps start endP center cw :=
  le_max_left _ _

theorem atan2_zero_of_nonneg {x : ℝ} (hx : 0 ≤ x) : atan2 0 x = 0 := by
  unfold atan2
  have hz : (⟨x, 0⟩ : ℂ) = (x : ℂ) := by
    simp [Complex.ext_iff]
  rw [hz, Complex.arg_ofReal_of_nonneg hx]

theorem atan2_zero_neg_one : atan2 0 (-1) = Real.pi := by
  unfold atan2
  have hz : (⟨-1, 0⟩ : ℂ) = (-1 : ℂ) := by
    simp [Complex.ext_iff]
  rw [hz, Complex.arg_neg_one]

theorem hypot_mul_cos_sin (r a : ℝ) (hr : 0 ≤ r) :
    hypot (r * Real.cos a) (r * Real.sin a) = r := by
  unfold hypot
  rw [mul_pow, mul_pow, ← mul_add, Real.cos_sq_add_sin_sq, mul_one,
    Real.sqrt_sq hr]

/-! ## C8: partial coordinate updates -/

/-- Claim C8: for every prior position and every partial coordinate
update of a rapid or feed move, the resolved target (the source's
`target = last_pos.copy(); target.update(c)`) differs from the prior
position only on the axes present in the parsed coordinates; each
unspecified axis retains its previous value, and under `MOVEABS` the
tracker's position becomes exactly that resolved target. -/
theorem C8_partial_update (p : Pos) (line : List Char) :
    ((parse_coord line ['X', 'Y', 'Z']) 'X' = none →
      (applyCoords p (parse_coord line ['X', 'Y', 'Z'])).X = p.X) ∧
    ((parse_coord line ['X', 'Y', 'Z']) 'Y' = none →
      (applyCoords p (parse_coord line ['X', 'Y', 'Z'])).Y = p.Y) ∧
    ((parse_coord line ['X', 'Y', 'Z']) 'Z' = none →
      (applyCoords p (parse_coord line ['X', 'Y', 'Z'])).Z = p.Z) ∧
    (∀ q, (parse_coord line ['X', 'Y', 'Z']) 'X' = some q →
      (applyCoords p (parse_coord line ['X', 'Y', 'Z'])).X = (q : ℝ)) ∧
    (∀ q, (parse_coord line ['X', 'Y', 'Z']) 'Y' = some q →
      (applyCoords p (parse_coord line ['X', 'Y', 'Z'])).Y = (q : ℝ)) ∧
    (∀ q, (parse_coord line ['X', 'Y', 'Z']) 'Z' = some q →
      (applyCoords p (parse_coord line ['X', 'Y', 'Z'])).Z = (q : ℝ)) ∧
    (∀ useArc s, begins kwMOVEABS line = true →
      (step useArc s line).state.pos =
        applyCoords s.pos (parse_coord line ['X', 'Y', 'Z'])) := by
  refine ⟨fun h => ?_, fun h => ?_, fun h => ?_,
    fun q h => ?_, fun q h => ?_, fun q h => ?_, fun useArc s h => ?_⟩
  · simp [applyCoords, qToR, h]
  · simp [applyCoords, qToR, h]
  · simp [applyCoords, qToR, h]
  · simp [applyCoords, qToR, h]
  · simp [applyCoords, qToR, h]
  · simp [applyCoords, qToR, h]
  · obtain ⟨cs, rfl, -⟩ := begins_cons_elim h
    have h1 : begins kwSPINDLE ('M' :: cs) = false := rfl
    have h2 : begins kwFASTABS ('M' :: cs) = false := rfl
    rw [step, if_neg (by simp [h1]), if_neg (by simp [h2]), if_pos (by simp [h])]

/-! ## C9: the coordinate parser -/

theorem searchAxis_some {a : Char} {t : List Char} {v : ℚ}
    (h : searchAxis a t = some v) :
    ∃ pre post, t = pre ++ a :: post ∧ parseSDec post = some v := by
  induction t with
  | nil => simp [searchAxis] at h
  | cons c rest ih =>
      simp only [searchAxis] at h
      split at h
      · next hca =>
          subst hca
          split at h
          · next w hw =>
              exact ⟨[], rest, rfl, by rw [hw, Option.some_inj.mp h]⟩
          · obtain ⟨pre, post, h1, h2⟩ := ih h
            exact ⟨c :: pre, post, by rw [h1]; rfl, h2⟩
      · next hca =>
          obtain ⟨pre, post, h1, h2⟩ := ih h
          exact ⟨c :: pre, post, by rw [h1]; rfl, h2⟩

theorem searchAxis_isSome {a : Char} {t pre post : List Char} {v : ℚ}
    (ht : t = pre ++ a :: post) (hp : parseSDec post = some v) :
    (searchAxis a t).isSome = true := by
  subst ht
  induction pre with
  | nil =>
      simp only [List.nil_append, searchAxis, if_pos rfl, hp]
      rfl
  | cons c pre ih =>
      simp only [List.cons_append, searchAxis]
      split
      · split
        · rfl
        · exact ih
      · exact ih

/-- Claim C9: the coordinate parser returns a mapping containing exactly
the axes (among those asked for) for which a signed integer or decimal
number immediately follows the axis letter somewhere in the text; each
present axis is mapped to such a following number divided by the scale
factor 1000; absent or malformed axes are simply missing from the
result, and no error is raised. -/
theorem C9_parse_coord (text : List Char) (axes : List Char) (a : Char) :
    (a ∉ axes → parse_coord text axes a = none) ∧
    ((parse_coord text axes a).isSome = true ↔
      a ∈ axes ∧ ∃ pre post v, text = pre ++ a :: post ∧
        parseSDec post = some v) ∧
    (∀ q, parse_coord text axes a = some q →
      ∃ pre post v, text = pre ++ a :: post ∧ parseSDec post = some v ∧
        q = v / SCALE) := by
  refine ⟨fun h => ?_, ⟨fun h => ?_, fun h => ?_⟩, fun q h => ?_⟩
  · simp [parse_coord, h]
  · by_cases ha : a ∈ axes
    · refine ⟨ha, ?_⟩
      rw [parse_coord] at h
      simp only [if_pos ha, Option.isSome_map'] at h
      obtain ⟨v, hv⟩ := Option.isSome_iff_exists.mp h
      obtain ⟨pre, post, h1, h2⟩ := searchAxis_some hv
      exact ⟨pre, post, v, h1, h2⟩
    · rw [parse_coord] at h
      simp [if_neg ha] at h
  · obtain ⟨ha, pre, post, v, h1, h2⟩ := h
    rw [parse_coord]
    simp only [if_pos ha, Option.isSome_map']
    exact searchAxis_isSome h1 h2
  · rw [parse_coord] at h
    by_cases ha : a ∈ axes
    · simp only [if_pos ha, Option.map_eq_some'] at h
      obtain ⟨v, hv, hq⟩ := h
      obtain ⟨pre, post, h1, h2⟩ := searchAxis_some hv
      exact ⟨pre, post, v, h1, h2, hq.symm⟩
    · simp [if_neg ha] at h

/-! ## C7: malformed VEL line -/

/-- Claim C7: a `VEL` line with no parseable numeric token does not
abort the run, produces exactly one logged warning, leaves the whole
machine state (in particular the current feed rate) unchanged, and
emits no output line. -/
theorem C7_malformed_vel (useArc : Bool) (s : MState) (line : List Char)
    (hv : begins kwVEL line = true) (hn : searchVEL line = none) :
    step useArc s line = { state := s, out := [], logs := [LogMsg.warnVEL] } := by
  obtain ⟨cs, rfl, -⟩ := begins_cons_elim hv
  have h1 : begins kwSPINDLE ('V' :: cs) = false := rfl
  have h2 : begins kwFASTABS ('V' :: cs) = false := rfl
  have h3 : begins kwMOVEABS ('V' :: cs) = false := rfl
  rw [step, if_neg (by simp [h1]), if_neg (by simp [h2]), if_neg (by simp [h3]),
    if_pos (by simp [hv]), hn]

/-- Witness for C7 at the concrete line `VEL`. -/
theorem C7_malformed_vel_witness :
    step false initState ['V', 'E', 'L'] =
      { state := initState, out := [], logs := [LogMsg.warnVEL] } :=
  C7_malformed_vel false initState ['V', 'E', 'L'] (by decide) (by decide)

/-! ## Evaluation of `step`, one lemma per dispatch branch -/

theorem step_spindle_some (u : Bool) (s : MState) (line : List Char) (rpm : ℕ)
    (h : begins kwSPINDLE line = true) (hr : searchRPM line = some rpm) :
    step u s line =
      { state := { s with lineNo := s.lineNo + 1 }
        out := [GLine.spindle s.lineNo rpm]
        logs := [LogMsg.spindleSet rpm] } := by
  rw [step, if_pos h, hr]

theorem step_spindle_none (u : Bool) (s : MState) (line : List Char)
    (h : begins kwSPINDLE line = true) (hr : searchRPM line = none) :
    step u s line = { state := s, out := [], logs := [LogMsg.warnRPM] } := by
  rw [step, if_pos h, hr]

theorem step_fastabs_retract (u : Bool) (s : MState) (line : List Char)
    (h1 : begins kwSPINDLE line = false) (h2 : begins kwFASTABS line = true)
    (hd : s.startDone = false) (hz : s.pos.Z < SAFE_Z) :
    step u s line =
      { state :=
          { feed := s.feed
            pos := applyCoords ⟨s.pos.X, s.pos.Y, SAFE_Z⟩
              (parse_coord line ['X', 'Y', 'Z'])
            lineNo := s.lineNo + 1 + 1
            startDone := true
            time := s.time }
        out := [GLine.retract s.lineNo SAFE_Z,
          GLine.move (s.lineNo + 1) true
            (axisWords (parse_coord line ['X', 'Y', 'Z'])
              (applyCoords ⟨s.pos.X, s.pos.Y, SAFE_Z⟩
                (parse_coord line ['X', 'Y', 'Z'])))]
        logs := [] } := by
  rw [step, if_neg (by simp [h1]), if_pos h2]
  simp [hd, hz]

theorem step_fastabs_first (u : Bool) (s : MState) (line : List Char)
    (h1 : begins kwSPINDLE line = false) (h2 : begins kwFASTABS line = true)
    (hd : s.startDone = false) (hz : ¬ s.pos.Z < SAFE_Z) :
    step u s line =
      { state :=
          { feed := s.feed
            pos := applyCoords s.pos (parse_coord line ['X', 'Y', 'Z'])
            lineNo := s.lineNo + 1
            startDone := true
            time := s.time }
        out := [GLine.move s.lineNo true
          (axisWords (parse_coord line ['X', 'Y', 'Z'])
            (applyCoords s.pos (parse_coord line ['X', 'Y', 'Z'])))]
        logs := [] } := by
  rw [step, if_neg (by simp [h1]), if_pos h2]
  simp [hd, hz]

theorem step_fastabs_done (u : Bool) (s : MState) (line : List Char)
    (h1 : begins kwSPINDLE line = false) (h2 : begins kwFASTABS line = true)
    (hd : s.startDone = true) :
    step u s line =
      { state :=
          { feed := s.feed
            pos := applyCoords s.pos (parse_coord line ['X', 'Y', 'Z'])
            lineNo := s.lineNo + 1
            startDone := true
            time := s.time }
        out := [GLine.move s.lineNo true
          (axisWords (parse_coord line ['X', 'Y', 'Z'])
            (applyCoords s.pos (parse_coord line ['X', 'Y', 'Z'])))]
        logs := [] } := by
  rw [step, if_neg (by simp [h1]), if_pos h2]
  simp [hd]

theorem step_moveabs_none (u : Bool) (s : MState) (line : List Char)
    (h1 : begins kwSPINDLE line = false) (h2 : begins kwFASTABS line = false)
    (h3 : begins kwMOVEABS line = true) (hf : s.feed = none) :
    step u s line =
      { state :=
          { feed := some DEFAULT_FEED
            pos := applyCoords s.pos (parse_coord line ['X', 'Y', 'Z'])
            lineNo := s.lineNo + 1 + 1
            startDone := s.startDone
            time := s.time + tAdd (some DEFAULT_FEED) (move_distance s.pos
              (applyCoords s.pos (parse_coord line ['X', 'Y', 'Z']))) }
        out := [GLine.feedRate s.lineNo DEFAULT_FEED,
          GLine.move (s.lineNo + 1) false
            (axisWords (parse_coord line ['X', 'Y', 'Z'])
              (applyCoords s.pos (parse_coord line ['X', 'Y', 'Z'])))]
        logs := [LogMsg.warnDefaultFeed] } := by
  rw [step, if_neg (by simp [h1]), if_neg (by simp [h2]), if_pos h3]
  simp [hf]

theorem step_moveabs_some (u : Bool) (s : MState) (line : List Char) (f : ℝ)
    (h1 : begins kwSPINDLE line = false) (h2 : begins kwFASTABS line = false)
    (h3 : begins kwMOVEABS line = true) (hf : s.feed = some f) :
    step u s line =
      { state :=
          { feed := some f
            pos := applyCoords s.pos (parse_coord line ['X', 'Y', 'Z'])
            lineNo := s.lineNo + 1
            startDone := s.startDone
            time := s.time + tAdd (some f) (move_distance s.pos
              (applyCoords s.pos (parse_coord line ['X', 'Y', 'Z']))) }
        out := [GLine.move s.lineNo false
          (axisWords (parse_coord line ['X', 'Y', 'Z'])
            (applyCoords s.pos (parse_coord line ['X', 'Y', 'Z'])))]
        logs := [] } := by
  rw [step, if_neg (by simp [h1]), if_neg (by simp [h2]), if_pos h3]
  simp [hf]

theorem step_vel_some (u : Bool) (s : MState) (line : List Char) (v : ℚ)
    (h1 : begins kwSPINDLE line = false) (h2 : begins kwFASTABS line = false)
    (h3 : begins kwMOVEABS line = false) (h4 : begins kwVEL line = true)
    (hv : searchVEL line = some v) :
    step u s line =
      { state := { s with
          feed := some ((v : ℝ) / velRatio)
          lineNo := s.lineNo + 1 }
        out := [GLine.feedRate s.lineNo ((v : ℝ) / velRatio)]
        logs := [LogMsg.feedSet ((v : ℝ) / velRatio)] } := by
  rw [step, if_neg (by simp [h1]), if_neg (by simp [h2]), if_neg (by simp [h3]),
    if_pos h4, hv]

theorem step_vel_none (u : Bool) (s : MState) (line : List Char)
    (h1 : begins kwSPINDLE line = false) (h2 : begins kwFASTABS line = false)
    (h3 : begins kwMOVEABS line = false) (h4 : begins kwVEL line = true)
    (hv : searchVEL line = none) :
    step u s line = { state := s, out := [], logs := [LogMsg.warnVEL] } := by
  rw [step, if_neg (by simp [h1]), if_neg (by simp [h2]), if_neg (by simp [h3]),
    if_pos h4, hv]

theorem step_arc_none (u : Bool) (s : MState) (line : List Char)
    (h1 : begins kwSPINDLE line = false) (h2 : begins kwFASTABS line = false)
    (h3 : begins kwMOVEABS line = false) (h4 : begins kwVEL line = false)
    (h5 : begins kwCWABS line = true ∨ begins kwCCWABS line = true)
    (hf : s.feed = none) :
    step u s line =
      { state :=
          { feed := some DEFAULT_FEED
            pos := (handle_arc u (some DEFAULT_FEED) (s.lineNo + 1) s.pos
              (applyCoords s.pos (parse_coord line ['X', 'Y', 'Z']))
              ⟨s.pos.X + qToR ((parse_coord line ['I', 'J']) 'I') 0.0,
               s.pos.Y + qToR ((parse_coord line ['I', 'J']) 'J') 0.0⟩
              (begins kwCWABS line)).pos
            lineNo := (handle_arc u (some DEFAULT_FEED) (s.lineNo + 1) s.pos
              (applyCoords s.pos (parse_coord line ['X', 'Y', 'Z']))
              ⟨s.pos.X + qToR ((parse_coord line ['I', 'J']) 'I') 0.0,
               s.pos.Y + qToR ((parse_coord line ['I', 'J']) 'J') 0.0⟩
              (begins kwCWABS line)).lineNo
            startDone := s.startDone
            time := s.time + (handle_arc u (some DEFAULT_FEED) (s.lineNo + 1) s.pos
              (applyCoords s.pos (parse_coord line ['X', 'Y', 'Z']))
              ⟨s.pos.X + qToR ((parse_coord line ['I', 'J']) 'I') 0.0,
               s.pos.Y + qToR ((parse_coord line ['I', 'J']) 'J') 0.0⟩
              (begins kwCWABS line)).timeAdd }
        out := GLine.feedRate s.lineNo DEFAULT_FEED ::
          (handle_arc u (some DEFAULT_FEED) (s.lineNo + 1) s.pos
            (applyCoords s.pos (parse_coord line ['X', 'Y', 'Z']))
            ⟨s.pos.X + qToR ((parse_coord line ['I', 'J']) 'I') 0.0,
             s.pos.Y + qToR ((parse_coord line ['I', 'J']) 'J') 0.0⟩
            (begins kwCWABS line)).lines
        logs := [LogMsg.warnDefaultFeed] } := by
  rw [step, if_neg (by simp [h1]), if_neg (by simp [h2]), if_neg (by simp [h3]),
    if_neg (by simp [h4]), if_pos h5]
  simp [hf]

theorem step_arc_some (u : Bool) (s : MState) (line : List Char) (f : ℝ)
    (h1 : begins kwSPINDLE line = false) (h2 : begins kwFASTABS line = false)
    (h3 : begins kwMOVEABS line = false) (h4 : begins kwVEL line = false)
    (h5 : begins kwCWABS line = true ∨ begins kwCCWABS line = true)
    (hf : s.feed = some f) :
    step u s line =
      { state :=
          { feed := some f
            pos := (handle_arc u (some f) s.lineNo s.pos
              (applyCoords s.pos (parse_coord line ['X', 'Y', 'Z']))
              ⟨s.pos.X + qToR ((parse_coord line ['I', 'J']) 'I') 0.0,
               s.pos.Y + qToR ((parse_coord line ['I', 'J']) 'J') 0.0⟩
              (begins kwCWABS line)).pos
            lineNo := (handle_arc u (some f) s.lineNo s.pos
              (applyCoords s.pos (parse_coord line ['X', 'Y', 'Z']))
              ⟨s.pos.X + qToR ((parse_coord line ['I', 'J']) 'I') 0.0,
               s.pos.Y + qToR ((parse_coord line ['I', 'J']) 'J') 0.0⟩
              (begins kwCWABS line)).lineNo
            startDone := s.startDone
            time := s.time + (handle_arc u (some f) s.lineNo s.pos
              (applyCoords s.pos (parse_coord line ['X', 'Y', 'Z']))
              ⟨s.pos.X + qToR ((parse_coord line ['I', 'J']) 'I') 0.0,
               s.pos.Y + qToR ((parse_coord line ['I', 'J']) 'J') 0.0⟩
              (begins kwCWABS line)).timeAdd }
        out := (handle_arc u (some f) s.lineNo s.pos
          (applyCoords s.pos (parse_coord line ['X', 'Y', 'Z']))
          ⟨s.pos.X + qToR ((parse_coord line ['I', 'J']) 'I') 0.0,
           s.pos.Y + qToR ((parse_coord line ['I', 'J']) 'J') 0.0⟩
          (begins kwCWABS line)).lines
        logs := [] } := by
  rw [step, if_neg (by simp [h1]), if_neg (by simp [h2]), if_neg (by simp [h3]),
    if_neg (by simp [h4]), if_pos h5]
  simp [hf]

theorem step_other (u : Bool) (s : MState) (line : List Char)
    (h1 : begins kwSPINDLE line = false) (h2 : begins kwFASTABS line = false)
    (h3 : begins kwMOVEABS line = false) (h4 : begins kwVEL line = false)
    (h5 : ¬ (begins kwCWABS line = true ∨ begins kwCCWABS line = true)) :
    step u s line = { state := s, out := [], logs := [] } := by
  rw [step, if_neg (by simp [h1]), if_neg (by simp [h2]), if_neg (by simp [h3]),
    if_neg (by simp [h4]), if_neg h5]

/-! ## C6: the default feed rule -/

/-- Is this output line a feed-motion line (a `G1` move, a linearised
arc segment, or a `G2`/`G3` directive)? Rapid `G0` moves are not. -/
def isMotion : GLine → Bool
  | GLine.move _ false _ => true
  | GLine.arcSeg _ _ _ _ => true
  | GLine.arcDir _ _ _ _ _ _ => true
  | _ => false

/-- Is this output line a feed-rate `F` directive? -/
def isFeedLine : GLine → Bool
  | GLine.feedRate _ _ => true
  | _ => false

/-- No feed-motion line occurs before the first feed-rate directive. -/
def feedFirst : List GLine → Bool
  | [] => true
  | gl :: rest =>
      if isFeedLine gl then true
      else if isMotion gl then false
      else feedFirst rest

theorem feedFirst_cons_feed {gl : GLine} (h : isFeedLine gl = true)
    (l : List GLine) : feedFirst (gl :: l) = true := by
  rw [feedFirst]
  simp [h]

theorem feedFirst_append {l1 l2 : List GLine} (h1 : feedFirst l1 = true)
    (h2 : feedFirst l2 = true) : feedFirst (l1 ++ l2) = true := by
  induction l1 with
  | nil => simpa using h2
  | cons gl l1 ih =>
      rw [List.cons_append, feedFirst]
      rw [feedFirst] at h1
      by_cases hg : isFeedLine gl = true
      · simp [hg]
      · rw [Bool.not_eq_true] at hg
        rw [hg] at h1 ⊢
        by_cases hm : isMotion gl = true
        · rw [hm] at h1
          simp at h1
        · rw [Bool.not_eq_true] at hm
          rw [hm] at h1 ⊢
          simpa using ih (by simpa using h1)

theorem feedFirst_of_clean {l : List GLine}
    (h : ∀ gl ∈ l, isFeedLine gl = false ∧ isMotion gl = false) :
    feedFirst l = true := by
  induction l with
  | nil => rfl
  | cons gl l ih =>
      obtain ⟨h1, h2⟩ := h gl (List.mem_cons_self _ _)
      rw [feedFirst, h1, h2]
      simpa using ih (fun g hg => h g (List.mem_cons_of_mem _ hg))

theorem linearize_lines_shape (feed : Option ℝ) (n : ℕ) (start endP : Pos)
    (center : Center) (cw : Bool) :
    ∀ gl ∈ (linearize_arc feed n start endP center cw).lines,
      ∃ m x y z, gl = GLine.arcSeg m x y z := by
  intro gl hgl
  rw [linearize_arc] at hgl
  simp only [] at hgl
  split at hgl
  · simp only [List.mem_append, List.mem_map, List.mem_range,
      List.mem_singleton] at hgl
    rcases hgl with ⟨k, -, rfl⟩ | rfl
    · exact ⟨_, _, _, _, rfl⟩
    · exact ⟨_, _, _, _, rfl⟩
  · simp only [List.mem_map, List.mem_range] at hgl
    obtain ⟨k, -, rfl⟩ := hgl
    exact ⟨_, _, _, _, rfl⟩

theorem arc_to_g2g3_lines_shape (feed : Option ℝ) (n : ℕ) (start endP : Pos)
    (center : Center) (cw : Bool) :
    ∃ x y i j, (arc_to_g2g3 feed n start endP center cw).lines =
      [GLine.arcDir n cw x y i j] :=
  ⟨_, _, _, _, rfl⟩

/-- Under either strategy, every line emitted by the arc handler is an
arc segment or an arc directive: never a feed-rate line, never a
retraction, never a rapid move. -/
theorem handle_arc_lines_arcish (useArc : Bool) (feed : Option ℝ) (n : ℕ)
    (start endP : Pos) (center : Center) (cw : Bool) :
    ∀ gl ∈ (handle_arc useArc feed n start endP center cw).lines,
      ((∃ m x y z, gl = GLine.arcSeg m x y z) ∨
       (∃ m b x y i j, gl = GLine.arcDir m b x y i j)) := by
  intro gl hgl
  rw [handle_arc] at hgl
  split at hgl
  · obtain ⟨x, y, i, j, hl⟩ := arc_to_g2g3_lines_shape feed n start endP center cw
    rw [hl] at hgl
    simp only [List.mem_singleton] at hgl
    exact Or.inr ⟨_, _, _, _, _, _, hgl⟩
  · exact Or.inl (linearize_lines_shape feed n start endP center cw gl hgl)

/-- One step from an unset feed either leaves the feed unset while
emitting no feed line and no feed-motion line, or emits a feed-rate
directive as the very first of its output lines. -/
theorem step_feed_none (u : Bool) (s : MState) (line : List Char)
    (hf : s.feed = none) :
    ((step u s line).state.feed = none ∧
      ∀ gl ∈ (step u s line).out, isFeedLine gl = false ∧ isMotion gl = false) ∨
    (∃ n f rest, (step u s line).out = GLine.feedRate n f :: rest) := by
  by_cases h1 : begins kwSPINDLE line = true
  · cases hr : searchRPM line with
    | none =>
        rw [step_spindle_none u s line h1 hr]
        left
        simp [hf, isFeedLine, isMotion]
    | some rpm =>
        rw [step_spindle_some u s line rpm h1 hr]
        left
        simp [hf, isFeedLine, isMotion]
  · rw [Bool.not_eq_true] at h1
    by_cases h2 : begins kwFASTABS line = true
    · by_cases hd : s.startDone = true
      · rw [step_fastabs_done u s line h1 h2 hd]
        left
        simp [hf, isFeedLine, isMotion]
      · rw [Bool.not_eq_true] at hd
        by_cases hz : s.pos.Z < SAFE_Z
        · rw [step_fastabs_retract u s line h1 h2 hd hz]
          left
          constructor
          · exact hf
          · intro gl hgl
            simp only [List.mem_cons, List.not_mem_nil, or_false] at hgl
            rcases hgl with rfl | rfl <;> exact ⟨rfl, rfl⟩
        · rw [step_fastabs_first u s line h1 h2 hd hz]
          left
          constructor
          · exact hf
          · intro gl hgl
            simp only [List.mem_cons, List.not_mem_nil, or_false] at hgl
            rcases hgl with rfl
            exact ⟨rfl, rfl⟩
    · rw [Bool.not_eq_true] at h2
      by_cases h3 : begins kwMOVEABS line = true
      · rw [step_moveabs_none u s line h1 h2 h3 hf]
        right
        exact ⟨_, _, _, rfl⟩
      · rw [Bool.not_eq_true] at h3
        by_cases h4 : begins kwVEL line = true
        · cases hv : searchVEL line with
          | none =>
              rw [step_vel_none u s line h1 h2 h3 h4 hv]
              left
              simp [hf, isFeedLine, isMotion]
          | some v =>
              rw [step_vel_some u s line v h1 h2 h3 h4 hv]
              right
              exact ⟨s.lineNo, (v : ℝ) / velRatio, [], rfl⟩
        · rw [Bool.not_eq_true] at h4
          by_cases h5 : begins kwCWABS line = true ∨ begins kwCCWABS line = true
          · rw [step_arc_none u s line h1 h2 h3 h4 h5 hf]
            right
            exact ⟨_, _, _, rfl⟩
          · rw [step_other u s line h1 h2 h3 h4 h5]
            left
            simp [hf, isFeedLine, isMotion]

theorem runLines_feedFirst (u : Bool) :
    ∀ (ls : List (List Char)) (s : MState), s.feed = none →
      feedFirst (runLines u s ls).out = true := by
  intro ls
  induction ls with
  | nil =>
      intro s hs
      rfl
  | cons l ls ih =>
      intro s hs
      rw [runLines]
      split
      · exact ih s hs
      · show feedFirst ((step u s (strip l)).out ++
          (runLines u (step u s (strip l)).state ls).out) = true
        rcases step_feed_none u s (strip l) hs with ⟨hfeed, hclean⟩ | ⟨n, f, rest, hout⟩
        · exact feedFirst_append (feedFirst_of_clean hclean) (ih _ hfeed)
        · rw [hout, List.cons_append]
          exact feedFirst_cons_feed (by rfl) _

/-- Claim C6: when a feed move or an arc move arrives while the feed is
still unset, the engine first emits a feed-rate directive with the
default 1000 mm/min, logs a warning, sets the feed, and continues;
consequently, in any full run, no feed-motion line is ever emitted
before the first feed-rate directive. -/
theorem C6_default_feed (useArc : Bool) (input : List (List Char))
    (s : MState) (line : List Char) (hf : s.feed = none)
    (hm : begins kwMOVEABS line = true ∨ begins kwCWABS line = true ∨
      begins kwCCWABS line = true) :
    (step useArc s line).state.feed = some DEFAULT_FEED ∧
    (step useArc s line).out.head? =
      some (GLine.feedRate s.lineNo DEFAULT_FEED) ∧
    (step useArc s line).logs = [LogMsg.warnDefaultFeed] ∧
    feedFirst (convert_file useArc input).out = true := by
  have hglobal : feedFirst (convert_file useArc input).out = true := by
    show feedFirst (GLine.hdrG21 :: GLine.hdrG17 :: GLine.hdrG90 ::
      ((runLines useArc initState input).out ++ _)) = true
    rw [feedFirst, feedFirst, feedFirst]
    simp only [isFeedLine, isMotion, if_false]
    exact feedFirst_append (runLines_feedFirst useArc input initState rfl) rfl
  rcases hm with hm | hm | hm
  · obtain ⟨cs, rfl, -⟩ := begins_cons_elim hm
    rw [step_moveabs_none useArc s _ (by rfl) (by rfl) hm hf]
    exact ⟨rfl, rfl, rfl, hglobal⟩
  · obtain ⟨cs, rfl, -⟩ := begins_cons_elim hm
    rw [step_arc_none useArc s _ (by rfl) (by rfl) (by rfl) (by rfl) (Or.inl hm) hf]
    exact ⟨rfl, rfl, rfl, hglobal⟩
  · obtain ⟨cs, rfl, -⟩ := begins_cons_elim hm
    rw [step_arc_none useArc s _ (by rfl) (by rfl) (by rfl) (by rfl) (Or.inr hm) hf]
    exact ⟨rfl, rfl, rfl, hglobal⟩

/-- Witness for C6 at the concrete line `MOVEABS` from the initial
state. -/
theorem C6_default_feed_witness :
    (step false initState kwMOVEABS).state.feed = some DEFAULT_FEED ∧
    (step false initState kwMOVEABS).out.head? =
      some (GLine.feedRate 1 DEFAULT_FEED) ∧
    (step false initState kwMOVEABS).logs = [LogMsg.warnDefaultFeed] ∧
    feedFirst (convert_file false []).out = true :=
  C6_default_feed false [] initState kwMOVEABS rfl (Or.inl (by decide))

/-! ## C4: the startup retraction -/

/-- Is this output line the startup-retraction `G0 Z..` emission? -/
def isRetract : GLine → Bool
  | GLine.retract _ _ => true
  | _ => false

/-- Number of startup-retraction lines in an output. -/
def countRetract (l : List GLine) : ℕ := l.countP isRetract

theorem countRetract_handle_arc (u : Bool) (feed : Option ℝ) (n : ℕ)
    (start endP : Pos) (center : Center) (cw : Bool) :
    countRetract (handle_arc u feed n start endP center cw).lines = 0 := by
  refine List.countP_eq_zero.mpr (fun gl hgl => ?_)
  rcases handle_arc_lines_arcish u feed n start endP center cw gl hgl with
    ⟨m, x, y, z, rfl⟩ | ⟨m, b, x, y, i, j, rfl⟩ <;> simp [isRetract]

/-- Master classification of one step for the retraction analysis:
either the step emits no retraction and preserves the start-done flag,
or the line is a rapid move, the flag is set afterwards, and a
retraction is emitted exactly when the flag was clear and the prior Z
was below the safe height, in which case the full output is the
retraction immediately followed by the rapid move. -/
theorem step_shape (u : Bool) (s : MState) (line : List Char) :
    (countRetract (step u s line).out = 0 ∧
      (step u s line).state.startDone = s.startDone) ∨
    (begins kwFASTABS line = true ∧ (step u s line).state.startDone = true ∧
      (countRetract (step u s line).out = 0 ∨
        (s.startDone = false ∧ s.pos.Z < SAFE_Z ∧
          (step u s line).out =
            [GLine.retract s.lineNo SAFE_Z,
             GLine.move (s.lineNo + 1) true
               (axisWords (parse_coord line ['X', 'Y', 'Z'])
                 (applyCoords ⟨s.pos.X, s.pos.Y, SAFE_Z⟩
                   (parse_coord line ['X', 'Y', 'Z'])))]))) := by
  by_cases h1 : begins kwSPINDLE line = true
  · cases hr : searchRPM line with
    | none =>
        rw [step_spindle_none u s line h1 hr]
        exact Or.inl ⟨rfl, rfl⟩
    | some rpm =>
        rw [step_spindle_some u s line rpm h1 hr]
        exact Or.inl ⟨rfl, rfl⟩
  · rw [Bool.not_eq_true] at h1
    by_cases h2 : begins kwFASTABS line = true
    · by_cases hd : s.startDone = true
      · rw [step_fastabs_done u s line h1 h2 hd]
        exact Or.inr ⟨h2, rfl, Or.inl rfl⟩
      · rw [Bool.not_eq_true] at hd
        by_cases hz : s.pos.Z < SAFE_Z
        · rw [step_fastabs_retract u s line h1 h2 hd hz]
          exact Or.inr ⟨h2, rfl, Or.inr ⟨hd, hz, rfl⟩⟩
        · rw [step_fastabs_first u s line h1 h2 hd hz]
          exact Or.inr ⟨h2, rfl, Or.inl rfl⟩
    · rw [Bool.not_eq_true] at h2
      by_cases h3 : begins kwMOVEABS line = true
      · cases hfe : s.feed with
        | none =>
            rw [step_moveabs_none u s line h1 h2 h3 hfe]
            exact Or.inl ⟨rfl, rfl⟩
        | some f =>
            rw [step_moveabs_some u s line f h1 h2 h3 hfe]
            exact Or.inl ⟨rfl, rfl⟩
      · rw [Bool.not_eq_true] at h3
        by_cases h4 : begins kwVEL line = true
        · cases hv : searchVEL line with
          | none =>
              rw [step_vel_none u s line h1 h2 h3 h4 hv]
              exact Or.inl ⟨rfl, rfl⟩
          | some v =>
              rw [step_vel_some u s line v h1 h2 h3 h4 hv]
              exact Or.inl ⟨rfl, rfl⟩
        · rw [Bool.not_eq_true] at h4
          by_cases h5 : begins kwCWABS line = true ∨ begins kwCCWABS line = true
          · cases hfe : s.feed with
            | none =>
                rw [step_arc_none u s line h1 h2 h3 h4 h5 hfe]
                refine Or.inl ⟨?_, rfl⟩
                have hz := countRetract_handle_arc u (some DEFAULT_FEED)
                  (s.lineNo + 1) s.pos
                  (applyCoords s.pos (parse_coord line ['X', 'Y', 'Z']))
                  ⟨s.pos.X + qToR ((parse_coord line ['I', 'J']) 'I') 0.0,
                   s.pos.Y + qToR ((parse_coord line ['I', 'J']) 'J') 0.0⟩
                  (begins kwCWABS line)
                rw [countRetract] at hz
                simp [countRetract, List.countP_cons, isRetract, hz]
            | some f =>
                rw [step_arc_some u s line f h1 h2 h3 h4 h5 hfe]
                refine Or.inl ⟨?_, rfl⟩
                exact countRetract_handle_arc u (some f) s.lineNo _ _ _ _
          · rw [step_other u s line h1 h2 h3 h4 h5]
            exact Or.inl ⟨rfl, rfl⟩

theorem step_countRetract_le (u : Bool) (s : MState) (line : List Char) :
    countRetract (step u s line).out ≤ 1 := by
  rcases step_shape u s line with ⟨h0, -⟩ | ⟨-, -, h0 | ⟨-, -, hout⟩⟩
  · simp [h0]
  · simp [h0]
  · rw [hout]
    exact le_of_eq rfl

theorem step_countRetract_done (u : Bool) (s : MState) (line : List Char)
    (hd : s.startDone = true) : countRetract (step u s line).out = 0 := by
  rcases step_shape u s line with ⟨h0, -⟩ | ⟨-, -, h0 | ⟨hds, -, -⟩⟩
  · exact h0
  · exact h0
  · rw [hd] at hds
    exact absurd hds (by simp)

theorem step_startDone_after (u : Bool) (s : MState) (line : List Char)
    (h : countRetract (step u s line).out ≠ 0) :
    (step u s line).state.startDone = true := by
  rcases step_shape u s line with ⟨h0, -⟩ | ⟨-, hsd, -⟩
  · exact absurd h0 h
  · exact hsd

theorem step_startDone_mono (u : Bool) (s : MState) (line : List Char)
    (hd : s.startDone = true) : (step u s line).state.startDone = true := by
  rcases step_shape u s line with ⟨-, h0⟩ | ⟨-, hsd, -⟩
  · rw [h0, hd]
  · exact hsd

theorem step_retract_char (u : Bool) (s : MState) (line : List Char)
    (h : ∃ gl ∈ (step u s line).out, isRetract gl = true) :
    begins kwFASTABS line = true ∧ s.startDone = false ∧ s.pos.Z < SAFE_Z ∧
    (step u s line).out =
      [GLine.retract s.lineNo SAFE_Z,
       GLine.move (s.lineNo + 1) true
         (axisWords (parse_coord line ['X', 'Y', 'Z'])
           (applyCoords ⟨s.pos.X, s.pos.Y, SAFE_Z⟩
             (parse_coord line ['X', 'Y', 'Z'])))] := by
  have hpos : countRetract (step u s line).out ≠ 0 := by
    have hp := List.countP_pos_iff.mpr h
    rw [countRetract]
    omega
  rcases step_shape u s line with ⟨h0, -⟩ | ⟨hfa, -, h0 | ⟨hd, hz, hout⟩⟩
  · exact absurd h0 hpos
  · exact absurd h0 hpos
  · exact ⟨hfa, hd, hz, hout⟩

theorem runLines_countRetract (u : Bool) :
    ∀ (ls : List (List Char)) (s : MState),
      (s.startDone = true → countRetract (runLines u s ls).out = 0) ∧
      countRetract (runLines u s ls).out ≤ 1 := by
  intro ls
  induction ls with
  | nil =>
      intro s
      exact ⟨fun _ => rfl, by simp [runLines, countRetract]⟩
  | cons l ls ih =>
      intro s
      rw [runLines]
      by_cases hskip : ((strip l).isEmpty = true ∨ (strip l).head? = some ';')
      · rw [if_pos hskip]
        exact ih s
      · rw [if_neg hskip]
        show (s.startDone = true → countRetract ((step u s (strip l)).out ++
            (runLines u (step u s (strip l)).state ls).out) = 0) ∧
          countRetract ((step u s (strip l)).out ++
            (runLines u (step u s (strip l)).state ls).out) ≤ 1
        rw [countRetract, List.countP_append]
        constructor
        · intro hd
          have hA : List.countP isRetract (step u s (strip l)).out = 0 :=
            step_countRetract_done u s _ hd
          have hB : List.countP isRetract
              (runLines u (step u s (strip l)).state ls).out = 0 :=
            (ih _).1 (step_startDone_mono u s _ hd)
          rw [hA, hB]
        · rcases Nat.eq_zero_or_pos
            (List.countP isRetract (step u s (strip l)).out) with h0 | hp
          · have hB : List.countP isRetract
                (runLines u (step u s (strip l)).state ls).out ≤ 1 := (ih _).2
            omega
          · have hdone := step_startDone_after u s (strip l)
              (by rw [countRetract]; omega)
            have hB : List.countP isRetract
                (runLines u (step u s (strip l)).state ls).out = 0 :=
              (ih _).1 hdone
            have hA : List.countP isRetract (step u s (strip l)).out ≤ 1 :=
              step_countRetract_le u s (strip l)
            omega

/-- Claim C4: in every conversion run the startup retraction is emitted
at most once; it can only be emitted by a rapid-move step taken while
the start-done flag is still clear and the current Z is below the safe
height 4.0, and then it appears immediately before that first rapid
move's `G0` line; feed and arc moves never emit it. -/
theorem C4_startup_retraction (useArc : Bool) (input : List (List Char)) :
    countRetract (convert_file useArc input).out ≤ 1 ∧
    (∀ s line, (∃ gl ∈ (step useArc s line).out, isRetract gl = true) →
      begins kwFASTABS line = true ∧ s.startDone = false ∧
      s.pos.Z < SAFE_Z ∧
      (step useArc s line).out =
        [GLine.retract s.lineNo SAFE_Z,
         GLine.move (s.lineNo + 1) true
           (axisWords (parse_coord line ['X', 'Y', 'Z'])
             (applyCoords ⟨s.pos.X, s.pos.Y, SAFE_Z⟩
               (parse_coord line ['X', 'Y', 'Z'])))]) := by
  constructor
  · show countRetract (GLine.hdrG21 :: GLine.hdrG17 :: GLine.hdrG90 ::
      ((runLines useArc initState input).out ++
        [GLine.m05 (runLines useArc initState input).state.lineNo,
         GLine.m30 ((runLines useArc initState input).state.lineNo + 1)])) ≤ 1
    rw [countRetract, List.countP_cons, List.countP_cons, List.countP_cons,
      List.countP_append, List.countP_cons, List.countP_cons, List.countP_nil]
    have h2 := (runLines_countRetract useArc input initState).2
    rw [countRetract] at h2
    simp only [isRetract]
    simp
    omega
  · intro s line h
    exact step_retract_char useArc s line h

/-! ## C5: the time estimator -/

theorem parseUDec_nonneg {cs : List Char} {v : ℚ} (h : parseUDec cs = some v) :
    0 ≤ v := by
  simp only [parseUDec] at h
  split at h
  · exact absurd h (by simp)
  · split at h
    · split at h
      · rw [Option.some_inj] at h
        rw [← h]
        positivity
      · rw [Option.some_inj] at h
        rw [← h]
        positivity
    · rw [Option.some_inj] at h
      rw [← h]
      positivity

theorem searchVEL_nonneg : ∀ {cs : List Char} {v : ℚ},
    searchVEL cs = some v → 0 ≤ v := by
  intro cs
  induction cs with
  | nil =>
      intro v h
      simp [searchVEL] at h
  | cons c rest ih =>
      intro v h
      rw [searchVEL] at h
      split at h
      · split at h
        · next v1 hv1 =>
            rw [Option.some_inj] at h
            exact h ▸ parseUDec_nonneg hv1
        · exact ih h
      · exact ih h

/-- The invariant that any set feed rate is non-negative. -/
def feedOK (s : MState) : Prop := ∀ f, s.feed = some f → 0 ≤ f

theorem tAdd_nonneg {feed : Option ℝ} (hf : ∀ f, feed = some f → 0 ≤ f)
    {d : ℝ} (hd : 0 ≤ d) : 0 ≤ tAdd feed d := by
  cases feed with
  | none => simp [tAdd]
  | some f =>
      rw [tAdd_some]
      exact div_nonneg hd (hf f rfl)

theorem linearize_timeAdd_nonneg (feed : Option ℝ) (n : ℕ) (start endP : Pos)
    (center : Center) (cw : Bool) (hf : ∀ f, feed = some f → 0 ≤ f) :
    0 ≤ (linearize_arc feed n start endP center cw).timeAdd := by
  rw [linearize_arc]
  simp only []
  split
  · show 0 ≤ (∑ k in Finset.range (arcSteps start endP center cw),
      tAdd feed (move_distance (arcP start endP center cw k)
        (arcP start endP center cw (k + 1)))) +
      tAdd feed (move_distance
        (arcP start endP center cw (arcSteps start endP center cw)) endP)
    exact add_nonneg
      (Finset.sum_nonneg (fun k _ => tAdd_nonneg hf (move_distance_nonneg _ _)))
      (tAdd_nonneg hf (move_distance_nonneg _ _))
  · show 0 ≤ ∑ k in Finset.range (arcSteps start endP center cw),
      tAdd feed (move_distance (arcP start endP center cw k)
        (arcP start endP center cw (k + 1)))
    exact Finset.sum_nonneg (fun k _ => tAdd_nonneg hf (move_distance_nonneg _ _))

theorem handle_arc_timeAdd_nonneg (u : Bool) (feed : Option ℝ) (n : ℕ)
    (start endP : Pos) (center : Center) (cw : Bool)
    (hf : ∀ f, feed = some f → 0 ≤ f) :
    0 ≤ (handle_arc u feed n start endP center cw).timeAdd := by
  rw [handle_arc]
  split
  · exact tAdd_nonneg hf (arcLen_nonneg _ _ _ _)
  · exact linearize_timeAdd_nonneg feed n start endP center cw hf

theorem DEFAULT_FEED_nonneg : (0 : ℝ) ≤ DEFAULT_FEED := by
  rw [DEFAULT_FEED]
  norm_num

theorem step_time_mono (u : Bool) (s : MState) (line : List Char)
    (hs : feedOK s) :
    s.time ≤ (step u s line).state.time ∧ feedOK (step u s line).state := by
  by_cases h1 : begins kwSPINDLE line = true
  · cases hr : searchRPM line with
    | none =>
        rw [step_spindle_none u s line h1 hr]
        exact ⟨le_refl _, hs⟩
    | some rpm =>
        rw [step_spindle_some u s line rpm h1 hr]
        exact ⟨le_refl _, hs⟩
  · rw [Bool.not_eq_true] at h1
    by_cases h2 : begins kwFASTABS line = true
    · by_cases hd : s.startDone = true
      · rw [step_fastabs_done u s line h1 h2 hd]
        exact ⟨le_refl _, hs⟩
      · rw [Bool.not_eq_true] at hd
        by_cases hz : s.pos.Z < SAFE_Z
        · rw [step_fastabs_retract u s line h1 h2 hd hz]
          exact ⟨le_refl _, hs⟩
        · rw [step_fastabs_first u s line h1 h2 hd hz]
          exact ⟨le_refl _, hs⟩
    · rw [Bool.not_eq_true] at h2
      by_cases h3 : begins kwMOVEABS line = true
      · cases hfe : s.feed with
        | none =>
            rw [step_moveabs_none u s line h1 h2 h3 hfe]
            refine ⟨le_add_of_nonneg_right (tAdd_nonneg ?_ (move_distance_nonneg _ _)), ?_⟩
            · intro f hf
              rw [Option.some_inj] at hf
              exact hf ▸ DEFAULT_FEED_nonneg
            · intro f hf
              rw [Option.some_inj] at hf
              exact hf ▸ DEFAULT_FEED_nonneg
        | some f =>
            rw [step_moveabs_some u s line f h1 h2 h3 hfe]
            have hf0 : 0 ≤ f := hs f hfe
            refine ⟨le_add_of_nonneg_right (tAdd_nonneg ?_ (move_distance_nonneg _ _)), ?_⟩
            · intro g hg
              rw [Option.some_inj] at hg
              exact hg ▸ hf0
            · intro g hg
              rw [Option.some_inj] at hg
              exact hg ▸ hf0
      · rw [Bool.not_eq_true] at h3
        by_cases h4 : begins kwVEL line = true
        · cases hv : searchVEL line with
          | none =>
              rw [step_vel_none u s line h1 h2 h3 h4 hv]
              exact ⟨le_refl _, hs⟩
          | some v =>
              rw [step_vel_some u s line v h1 h2 h3 h4 hv]
              refine ⟨le_refl _, ?_⟩
              intro g hg
              rw [Option.some_inj] at hg
              rw [← hg]
              have hv0 : (0 : ℚ) ≤ v := searchVEL_nonneg hv
              have : (0 : ℝ) ≤ (v : ℝ) := by exact_mod_cast hv0
              apply div_nonneg this
              rw [velRatio]
              norm_num
        · rw [Bool.not_eq_true] at h4
          by_cases h5 : begins kwCWABS line = true ∨ begins kwCCWABS line = true
          · cases hfe : s.feed with
            | none =>
                rw [step_arc_none u s line h1 h2 h3 h4 h5 hfe]
                have hdf : ∀ f : ℝ, some DEFAULT_FEED = some f → 0 ≤ f := by
                  intro f hf
                  rw [Option.some_inj] at hf
                  exact hf ▸ DEFAULT_FEED_nonneg
                exact ⟨le_add_of_nonneg_right
                  (handle_arc_timeAdd_nonneg u _ _ _ _ _ _ hdf), hdf⟩
            | some f =>
                rw [step_arc_some u s line f h1 h2 h3 h4 h5 hfe]
                have hf0 : 0 ≤ f := hs f hfe
                have hdf : ∀ g : ℝ, some f = some g → 0 ≤ g := by
                  intro g hg
                  rw [Option.some_inj] at hg
                  exact hg ▸ hf0
                exact ⟨le_add_of_nonneg_right
                  (handle_arc_timeAdd_nonneg u _ _ _ _ _ _ hdf), hdf⟩
          · rw [step_other u s line h1 h2 h3 h4 h5]
            exact ⟨le_refl _, hs⟩

theorem runLines_time (u : Bool) :
    ∀ (ls : List (List Char)) (s : MState), feedOK s →
      s.time ≤ (runLines u s ls).state.time ∧
      feedOK (runLines u s ls).state := by
  intro ls
  induction ls with
  | nil =>
      intro s hs
      exact ⟨le_refl _, hs⟩
  | cons l ls ih =>
      intro s hs
      rw [runLines]
      by_cases hskip : ((strip l).isEmpty = true ∨ (strip l).head? = some ';')
      · rw [if_pos hskip]
        exact ih s hs
      · rw [if_neg hskip]
        obtain ⟨hle, hok⟩ := step_time_mono u s (strip l) hs
        obtain ⟨hle2, hok2⟩ := ih (step u s (strip l)).state hok
        exact ⟨le_trans hle hle2, hok2⟩

theorem runLines_state_append (u : Bool) (b : List (List Char)) :
    ∀ (a : List (List Char)) (s : MState),
      (runLines u s (a ++ b)).state = (runLines u (runLines u s a).state b).state := by
  intro a
  induction a with
  | nil => intro s; rfl
  | cons l a ih =>
      intro s
      have hcons : ∀ ls : List (List Char), runLines u s (l :: ls) =
          if (strip l).isEmpty = true ∨ (strip l).head? = some ';' then
            runLines u s ls
          else
            { state := (runLines u (step u s (strip l)).state ls).state
              out := (step u s (strip l)).out ++ (runLines u (step u s (strip l)).state ls).out
              logs := (step u s (strip l)).logs ++ (runLines u (step u s (strip l)).state ls).logs } := by
        intro ls
        rw [runLines]
      by_cases hskip : ((strip l).isEmpty = true ∨ (strip l).head? = some ';')
      · rw [List.cons_append, hcons (a ++ b), if_pos hskip, hcons a, if_pos hskip]
        exact ih s
      · rw [List.cons_append, hcons (a ++ b), if_neg hskip, hcons a, if_neg hskip]
        exact ih (step u s (strip l)).state

theorem initState_feedOK : feedOK initState := by
  intro f h
  simp [initState] at h

theorem step_time_const (u : Bool) (s : MState) (line : List Char)
    (hm : begins kwMOVEABS line = false)
    (hcw : begins kwCWABS line = false)
    (hccw : begins kwCCWABS line = false) :
    (step u s line).state.time = s.time := by
  by_cases h1 : begins kwSPINDLE line = true
  · cases hr : searchRPM line with
    | none => rw [step_spindle_none u s line h1 hr]
    | some rpm => rw [step_spindle_some u s line rpm h1 hr]
  · rw [Bool.not_eq_true] at h1
    by_cases h2 : begins kwFASTABS line = true
    · by_cases hd : s.startDone = true
      · rw [step_fastabs_done u s line h1 h2 hd]
      · rw [Bool.not_eq_true] at hd
        by_cases hz : s.pos.Z < SAFE_Z
        · rw [step_fastabs_retract u s line h1 h2 hd hz]
        · rw [step_fastabs_first u s line h1 h2 hd hz]
    · rw [Bool.not_eq_true] at h2
      by_cases h4 : begins kwVEL line = true
      · cases hv : searchVEL line with
        | none => rw [step_vel_none u s line h1 h2 hm h4 hv]
        | some v => rw [step_vel_some u s line v h1 h2 hm h4 hv]
      · rw [Bool.not_eq_true] at h4
        rw [step_other u s line h1 h2 hm h4 (by simp [hcw, hccw])]

theorem runLines_time_const (u : Bool) :
    ∀ (ls : List (List Char)) (s : MState),
      (∀ l ∈ ls, begins kwMOVEABS (strip l) = false ∧
        begins kwCWABS (strip l) = false ∧ begins kwCCWABS (strip l) = false) →
      (runLines u s ls).state.time = s.time := by
  intro ls
  induction ls with
  | nil => intro s _; rfl
  | cons l ls ih =>
      intro s hall
      rw [runLines]
      by_cases hskip : ((strip l).isEmpty = true ∨ (strip l).head? = some ';')
      · rw [if_pos hskip]
        exact ih s (fun x hx => hall x (List.mem_cons_of_mem _ hx))
      · rw [if_neg hskip]
        obtain ⟨hm, hcw, hccw⟩ := hall l (List.mem_cons_self _ _)
        show (runLines u (step u s (strip l)).state ls).state.time = s.time
        rw [ih _ (fun x hx => hall x (List.mem_cons_of_mem _ hx)),
          step_time_const u s (strip l) hm hcw hccw]

theorem linearize_timeAdd_formula (f : ℝ) (n : ℕ) (start endP : Pos)
    (center : Center) (cw : Bool) :
    (linearize_arc (some f) n start endP center cw).timeAdd =
      (∑ k in Finset.range (arcSteps start endP center cw),
        move_distance (arcP start endP center cw k)
          (arcP start endP center cw (k + 1)) / f) +
      (if 0.001 < |endP.X - (arcP start endP center cw
            (arcSteps start endP center cw)).X| ∨
          0.001 < |endP.Y - (arcP start endP center cw
            (arcSteps start endP center cw)).Y| then
        move_distance (arcP start endP center cw
          (arcSteps start endP center cw)) endP / f
      else 0) := by
  rw [linearize_arc]
  simp only [tAdd_some]
  split
  · rfl
  · simp

/-- Claim C5: the estimated time is non-negative and monotone along the
run; rapid moves contribute nothing; a feed move adds its Euclidean 3-D
distance divided by the feed active when it was generated (the default
when none was set; zero contribution when the feed is zero, matching
division-by-zero-free code); each linearised arc segment likewise adds
its chord distance over the feed; and a run with no feed moves and no
arc moves has estimated time zero. -/
theorem C5_time_estimator (useArc : Bool) (input input2 : List (List Char)) :
    0 ≤ (convert_file useArc input).state.time ∧
    (convert_file useArc input).state.time ≤
      (convert_file useArc (input ++ input2)).state.time ∧
    (∀ s line, begins kwFASTABS line = true →
      (step useArc s line).state.time = s.time) ∧
    (∀ s line, begins kwMOVEABS line = true →
      (step useArc s line).state.time = s.time +
        move_distance s.pos
          (applyCoords s.pos (parse_coord line ['X', 'Y', 'Z'])) /
          (s.feed.getD DEFAULT_FEED)) ∧
    (∀ (f : ℝ) (n : ℕ) (start endP : Pos) (center : Center) (cw : Bool),
      (linearize_arc (some f) n start endP center cw).timeAdd =
        (∑ k in Finset.range (arcSteps start endP center cw),
          move_distance (arcP start endP center cw k)
            (arcP start endP center cw (k + 1)) / f) +
        (if 0.001 < |endP.X - (arcP start endP center cw
              (arcSteps start endP center cw)).X| ∨
            0.001 < |endP.Y - (arcP start endP center cw
              (arcSteps start endP center cw)).Y| then
          move_distance (arcP start endP center cw
            (arcSteps start endP center cw)) endP / f
        else 0)) ∧
    ((∀ l ∈ input, begins kwMOVEABS (strip l) = false ∧
        begins kwCWABS (strip l) = false ∧
        begins kwCCWABS (strip l) = false) →
      (convert_file useArc input).state.time = 0) := by
  have hconv : ∀ inp : List (List Char), (convert_file useArc inp).state.time =
      (runLines useArc initState inp).state.time := fun _ => rfl
  refine ⟨?_, ?_, ?_, ?_, ?_, ?_⟩
  · rw [hconv]
    exact le_trans (le_of_eq (by norm_num [initState]))
      (runLines_time useArc input initState initState_feedOK).1
  · rw [hconv, hconv, runLines_state_append]
    exact (runLines_time useArc input2 (runLines useArc initState input).state
      (runLines_time useArc input initState initState_feedOK).2).1
  · intro s line h2
    obtain ⟨cs, rfl, -⟩ := begins_cons_elim h2
    have h1 : begins kwSPINDLE ('F' :: cs) = false := by rfl
    by_cases hd : s.startDone = true
    · rw [step_fastabs_done useArc s _ h1 h2 hd]
    · rw [Bool.not_eq_true] at hd
      by_cases hz : s.pos.Z < SAFE_Z
      · rw [step_fastabs_retract useArc s _ h1 h2 hd hz]
      · rw [step_fastabs_first useArc s _ h1 h2 hd hz]
  · intro s line h3
    obtain ⟨cs, rfl, -⟩ := begins_cons_elim h3
    cases hfe : s.feed with
    | none =>
        rw [step_moveabs_none useArc s _ (by rfl) (by rfl) h3 hfe]
        simp only [hfe, Option.getD_none, tAdd_some]
    | some f =>
        rw [step_moveabs_some useArc s _ f (by rfl) (by rfl) h3 hfe]
        simp only [hfe, Option.getD_some, tAdd_some]
  · intro f n start endP center cw
    exact linearize_timeAdd_formula f n start endP center cw
  · intro hall
    rw [hconv]
    rw [runLines_time_const useArc input initState hall]
    norm_num [initState]

/-! ## C10: zero feed rate -/

theorem linearize_timeAdd_zero (n : ℕ) (start endP : Pos) (center : Center)
    (cw : Bool) : (linearize_arc (some 0) n start endP center cw).timeAdd = 0 := by
  rw [linearize_timeAdd_formula]
  simp [div_zero]

theorem handle_arc_timeAdd_zero (u : Bool) (n : ℕ) (start endP : Pos)
    (center : Center) (cw : Bool) :
    (handle_arc u (some 0) n start endP center cw).timeAdd = 0 := by
  rw [handle_arc]
  split
  · show tAdd (some 0) (arcLen start endP center cw) = 0
    exact tAdd_zero_feed _
  · exact linearize_timeAdd_zero n start endP center cw

theorem linearize_lines_ne_nil (feed : Option ℝ) (n : ℕ) (start endP : Pos)
    (center : Center) (cw : Bool) :
    (linearize_arc feed n start endP center cw).lines ≠ [] := by
  rw [linearize_arc]
  simp only []
  split
  · simp
  · have h1 := arcSteps_pos start endP center cw
    simp only [ne_eq, List.map_eq_nil_iff, List.range_eq_nil]
    omega

theorem handle_arc_lines_ne_nil (u : Bool) (feed : Option ℝ) (n : ℕ)
    (start endP : Pos) (center : Center) (cw : Bool) :
    (handle_arc u feed n start endP center cw).lines ≠ [] := by
  rw [handle_arc]
  split
  · show [GLine.arcDir n cw _ _ _ _] ≠ []
    simp
  · exact linearize_lines_ne_nil feed n start endP center cw

/-- Claim C10: with the feed rate set to zero (as `VEL 0` does, emitting
`F0`), feed moves and arc moves still emit their motion lines, the
default-feed rule does not fire (no extra `F` line, no warning), and
the time estimate is unchanged — the zero feed contributes nothing and
no division by zero occurs. -/
theorem C10_zero_feed (useArc : Bool) (s : MState) (hf : s.feed = some 0) :
    (∀ line, begins kwMOVEABS line = true →
      (step useArc s line).state.feed = some 0 ∧
      (step useArc s line).state.time = s.time ∧
      (step useArc s line).out =
        [GLine.move s.lineNo false
          (axisWords (parse_coord line ['X', 'Y', 'Z'])
            (applyCoords s.pos (parse_coord line ['X', 'Y', 'Z'])))] ∧
      (step useArc s line).logs = []) ∧
    (∀ line, begins kwCWABS line = true ∨ begins kwCCWABS line = true →
      (step useArc s line).state.feed = some 0 ∧
      (step useArc s line).state.time = s.time ∧
      (step useArc s line).out ≠ [] ∧
      (∀ gl ∈ (step useArc s line).out, isFeedLine gl = false) ∧
      (step useArc s line).logs = []) ∧
    (∀ s2 : MState, step useArc s2 ['V', 'E', 'L', ' ', '0'] =
      { state := { s2 with feed := some 0, lineNo := s2.lineNo + 1 }
        out := [GLine.feedRate s2.lineNo 0]
        logs := [LogMsg.feedSet 0] }) := by
  refine ⟨?_, ?_, ?_⟩
  · intro line h3
    obtain ⟨cs, rfl, -⟩ := begins_cons_elim h3
    rw [step_moveabs_some useArc s _ 0 (by rfl) (by rfl) h3 hf]
    refine ⟨rfl, ?_, rfl, rfl⟩
    show s.time + tAdd (some 0) _ = s.time
    rw [tAdd_zero_feed, add_zero]
  · intro line h5
    have hC : ∃ cs, line = 'C' :: cs := by
      rcases h5 with h | h
      · obtain ⟨cs, rfl, -⟩ := begins_cons_elim h
        exact ⟨cs, rfl⟩
      · obtain ⟨cs, rfl, -⟩ := begins_cons_elim h
        exact ⟨cs, rfl⟩
    obtain ⟨cs, rfl⟩ := hC
    rw [step_arc_some useArc s _ 0 (by rfl) (by rfl) (by rfl) (by rfl) h5 hf]
    refine ⟨rfl, ?_, ?_, ?_, rfl⟩
    · show s.time + (handle_arc useArc (some 0) s.lineNo _ _ _ _).timeAdd = s.time
      rw [handle_arc_timeAdd_zero, add_zero]
    · exact handle_arc_lines_ne_nil useArc (some 0) s.lineNo _ _ _ _
    · intro gl hgl
      rcases handle_arc_lines_arcish useArc (some 0) s.lineNo _ _ _ _ gl hgl with
        ⟨m, x, y, z, rfl⟩ | ⟨m, b, x, y, i, j, rfl⟩ <;> rfl
  · intro s2
    have h0 : ((0 : ℚ) : ℝ) / velRatio = 0 := by norm_num
    rw [step_vel_some useArc s2 ['V', 'E', 'L', ' ', '0'] 0 (by rfl) (by rfl)
      (by rfl) (by rfl) (by decide)]
    rw [h0]

/-- Witness for C10 at the concrete state with feed `VEL 0` and the
concrete line `MOVEABS`. -/
theorem C10_zero_feed_witness :
    (step false (⟨some 0, ⟨0, 0, 0⟩, 1, false, 0⟩ : MState) kwMOVEABS).state.time = 0 ∧
    (step false (⟨some 0, ⟨0, 0, 0⟩, 1, false, 0⟩ : MState) kwMOVEABS).state.feed = some 0 := by
  obtain ⟨h1, -, -⟩ := C10_zero_feed false
    (⟨some 0, ⟨0, 0, 0⟩, 1, false, 0⟩ : MState) rfl
  obtain ⟨hfeed, htime, -, -⟩ := h1 kwMOVEABS (by decide)
  exact ⟨htime, hfeed⟩

/-! ## C3: strategy A, the linearised arc -/

theorem linearize_eval_corr (feed : Option ℝ) (n : ℕ) (start endP : Pos)
    (center : Center) (cw : Bool)
    (h : 0.001 < |endP.X - (arcP start endP center cw
        (arcSteps start endP center cw)).X| ∨
      0.001 < |endP.Y - (arcP start endP center cw
        (arcSteps start endP center cw)).Y|) :
    linearize_arc feed n start endP center cw =
      ⟨endP,
       (List.range (arcSteps start endP center cw)).map (fun k =>
         GLine.arcSeg (n + k) (arcP start endP center cw (k + 1)).X
           (arcP start endP center cw (k + 1)).Y
           (arcP start endP center cw (k + 1)).Z) ++
         [GLine.arcSeg (n + arcSteps start endP center cw) endP.X endP.Y endP.Z],
       (∑ k in Finset.range (arcSteps start endP center cw),
         tAdd feed (move_distance (arcP start endP center cw k)
           (arcP start endP center cw (k + 1)))) +
         tAdd feed (move_distance (arcP start endP center cw
           (arcSteps start endP center cw)) endP),
       n + arcSteps start endP center cw + 1⟩ := by
  rw [linearize_arc]
  simp only []
  rw [if_pos h]

theorem linearize_eval_nocorr (feed : Option ℝ) (n : ℕ) (start endP : Pos)
    (center : Center) (cw : Bool)
    (h : ¬ (0.001 < |endP.X - (arcP start endP center cw
        (arcSteps start endP center cw)).X| ∨
      0.001 < |endP.Y - (arcP start endP center cw
        (arcSteps start endP center cw)).Y|)) :
    linearize_arc feed n start endP center cw =
      ⟨arcP start endP center cw (arcSteps start endP center cw),
       (List.range (arcSteps start endP center cw)).map (fun k =>
         GLine.arcSeg (n + k) (arcP start endP center cw (k + 1)).X
           (arcP start endP center cw (k + 1)).Y
           (arcP start endP center cw (k + 1)).Z),
       ∑ k in Finset.range (arcSteps start endP center cw),
         tAdd feed (move_distance (arcP start endP center cw k)
           (arcP start endP center cw (k + 1))),
       n + arcSteps start endP center cw⟩ := by
  rw [linearize_arc]
  simp only []
  rw [if_neg h]

theorem linearize_corr_lines (feed : Option ℝ) (n : ℕ) (start endP : Pos)
    (center : Center) (cw : Bool)
    (h : 0.001 < |endP.X - (arcP start endP center cw
        (arcSteps start endP center cw)).X| ∨
      0.001 < |endP.Y - (arcP start endP center cw
        (arcSteps start endP center cw)).Y|) :
    (linearize_arc feed n start endP center cw).lines =
      (List.range (arcSteps start endP center cw)).map (fun k =>
        GLine.arcSeg (n + k) (arcP start endP center cw (k + 1)).X
          (arcP start endP center cw (k + 1)).Y
          (arcP start endP center cw (k + 1)).Z) ++
        [GLine.arcSeg (n + arcSteps start endP center cw)
          endP.X endP.Y endP.Z] := by
  rw [linearize_eval_corr feed n start endP center cw h]

theorem linearize_corr_pos (feed : Option ℝ) (n : ℕ) (start endP : Pos)
    (center : Center) (cw : Bool)
    (h : 0.001 < |endP.X - (arcP start endP center cw
        (arcSteps start endP center cw)).X| ∨
      0.001 < |endP.Y - (arcP start endP center cw
        (arcSteps start endP center cw)).Y|) :
    (linearize_arc feed n start endP center cw).pos = endP := by
  rw [linearize_eval_corr feed n start endP center cw h]

theorem linearize_nocorr_lines (feed : Option ℝ) (n : ℕ) (start endP : Pos)
    (center : Center) (cw : Bool)
    (h : ¬ (0.001 < |endP.X - (arcP start endP center cw
        (arcSteps start endP center cw)).X| ∨
      0.001 < |endP.Y - (arcP start endP center cw
        (arcSteps start endP center cw)).Y|)) :
    (linearize_arc feed n start endP center cw).lines =
      (List.range (arcSteps start endP center cw)).map (fun k =>
        GLine.arcSeg (n + k) (arcP start endP center cw (k + 1)).X
          (arcP start endP center cw (k + 1)).Y
          (arcP start endP center cw (k + 1)).Z) := by
  rw [linearize_eval_nocorr feed n start endP center cw h]

theorem linearize_nocorr_pos (feed : Option ℝ) (n : ℕ) (start endP : Pos)
    (center : Center) (cw : Bool)
    (h : ¬ (0.001 < |endP.X - (arcP start endP center cw
        (arcSteps start endP center cw)).X| ∨
      0.001 < |endP.Y - (arcP start endP center cw
        (arcSteps start endP center cw)).Y|)) :
    (linearize_arc feed n start endP center cw).pos =
      arcP start endP center cw (arcSteps start endP center cw) := by
  rw [linearize_eval_nocorr feed n start endP center cw h]

/-- Claim C3: under strategy A the loop emits exactly
`max 1 ⌊arc length / 0.05⌋` computed segments, each holding Z at the
arc's start Z; the final emitted endpoint (the coordinates of the last
emitted line, which is also the returned position) is within 0.001 mm
of the programmed end in X and Y; and exactly when the last computed
step differs from the programmed end by more than 0.001 mm in X or Y,
one corrective segment landing exactly on the programmed end point is
appended. -/
theorem C3_strategy_A (feed : Option ℝ) (n : ℕ) (start endP : Pos)
    (center : Center) (cw : Bool) :
    ((linearize_arc feed n start endP center cw).lines.take
        (arcSteps start endP center cw)).length =
      max 1 (Int.toNat ⌊arcLen start endP center cw / ARC_RESOLUTION⌋) ∧
    (∀ gl ∈ (linearize_arc feed n start endP center cw).lines.take
        (arcSteps start endP center cw),
      ∃ m x y, gl = GLine.arcSeg m x y start.Z) ∧
    (∃ m, (linearize_arc feed n start endP center cw).lines.getLast? =
      some (GLine.arcSeg m
        (linearize_arc feed n start endP center cw).pos.X
        (linearize_arc feed n start endP center cw).pos.Y
        (linearize_arc feed n start endP center cw).pos.Z)) ∧
    |endP.X - (linearize_arc feed n start endP center cw).pos.X| ≤ 0.001 ∧
    |endP.Y - (linearize_arc feed n start endP center cw).pos.Y| ≤ 0.001 ∧
    ((0.001 < |endP.X - (arcP start endP center cw
        (arcSteps start endP center cw)).X| ∨
      0.001 < |endP.Y - (arcP start endP center cw
        (arcSteps start endP center cw)).Y|) →
      (linearize_arc feed n start endP center cw).lines.length =
        arcSteps start endP center cw + 1 ∧
      (linearize_arc feed n start endP center cw).pos = endP ∧
      (linearize_arc feed n start endP center cw).lines.getLast? =
        some (GLine.arcSeg (n + arcSteps start endP center cw)
          endP.X endP.Y endP.Z)) ∧
    (¬ (0.001 < |endP.X - (arcP start endP center cw
        (arcSteps start endP center cw)).X| ∨
      0.001 < |endP.Y - (arcP start endP center cw
        (arcSteps start endP center cw)).Y|) →
      (linearize_arc feed n start endP center cw).lines.length =
        arcSteps start endP center cw ∧
      (linearize_arc feed n start endP center cw).pos =
        arcP start endP center cw (arcSteps start endP center cw)) := by
  obtain ⟨k, hk⟩ : ∃ k, arcSteps start endP center cw = k + 1 :=
    ⟨arcSteps start endP center cw - 1,
     by have := arcSteps_pos start endP center cw; omega⟩
  by_cases hcond : (0.001 < |endP.X - (arcP start endP center cw
        (arcSteps start endP center cw)).X| ∨
      0.001 < |endP.Y - (arcP start endP center cw
        (arcSteps start endP center cw)).Y|)
  · have hlines := linearize_corr_lines feed n start endP center cw hcond
    have hpos := linearize_corr_pos feed n start endP center cw hcond
    have hmlen : ((List.range (arcSteps start endP center cw)).map (fun k =>
        GLine.arcSeg (n + k) (arcP start endP center cw (k + 1)).X
          (arcP start endP center cw (k + 1)).Y
          (arcP start endP center cw (k + 1)).Z)).length =
        arcSteps start endP center cw := by
      simp
    rw [hlines, hpos]
    refine ⟨?_, ?_, ?_, ?_, ?_, ?_, ?_⟩
    · rw [List.take_left' hmlen, hmlen, arcSteps]
    · intro gl hgl
      rw [List.take_left' hmlen] at hgl
      simp only [List.mem_map, List.mem_range] at hgl
      obtain ⟨j, -, rfl⟩ := hgl
      exact ⟨n + j, _, _, rfl⟩
    · rw [List.getLast?_concat]
      exact ⟨n + arcSteps start endP center cw, rfl⟩
    · norm_num
    · norm_num
    · intro _
      refine ⟨?_, rfl, ?_⟩
      · rw [List.length_append, hmlen]
        rfl
      · rw [List.getLast?_concat]
    · intro hn
      exact absurd hcond hn
  · have hlines := linearize_nocorr_lines feed n start endP center cw hcond
    have hpos := linearize_nocorr_pos feed n start endP center cw hcond
    have hmlen : ((List.range (arcSteps start endP center cw)).map (fun k =>
        GLine.arcSeg (n + k) (arcP start endP center cw (k + 1)).X
          (arcP start endP center cw (k + 1)).Y
          (arcP start endP center cw (k + 1)).Z)).length =
        arcSteps start endP center cw := by
      simp
    push_neg at hcond
    obtain ⟨hX, hY⟩ := hcond
    rw [hlines, hpos]
    refine ⟨?_, ?_, ?_, ?_, ?_, ?_, ?_⟩
    · rw [List.take_of_length_le (le_of_eq hmlen), hmlen, arcSteps]
    · intro gl hgl
      rw [List.take_of_length_le (le_of_eq hmlen)] at hgl
      simp only [List.mem_map, List.mem_range] at hgl
      obtain ⟨j, -, rfl⟩ := hgl
      exact ⟨n + j, _, _, rfl⟩
    · refine ⟨n + k, ?_⟩
      conv_lhs => rw [hk, List.range_succ, List.map_append, List.map_cons,
        List.map_nil]
      rw [List.getLast?_concat, hk]
    · exact hX
    · exact hY
    · intro hc
      rcases hc with hc | hc
      · exact absurd hc (not_lt.mpr hX)
      · exact absurd hc (not_lt.mpr hY)
    · intro _
      exact ⟨hmlen, rfl⟩

/-! ## C1 and C2: the arc handlers' emitted directive and returned
position -/

/-- The last loop point of strategy A is the point of the circle of the
start radius at the adjusted end angle — analytically the same corrected
end point strategy B computes. -/
theorem arcP_steps (start endP : Pos) (center : Center) (cw : Bool) :
    arcP start endP center cw (arcSteps start endP center cw) =
      ⟨center.X + arcRadius start center *
         Real.cos (arcA1 start endP center cw),
       center.Y + arcRadius start center *
         Real.sin (arcA1 start endP center cw), start.Z⟩ := by
  obtain ⟨k, hk⟩ : ∃ k, arcSteps start endP center cw = k + 1 :=
    ⟨arcSteps start endP center cw - 1,
     by have := arcSteps_pos start endP center cw; omega⟩
  have hne : (arcSteps start endP center cw : ℝ) ≠ 0 := by
    rw [hk]
    exact_mod_cast Nat.succ_ne_zero k
  rw [hk]
  show arcTarget start endP center cw (k + 1) = _
  rw [arcTarget]
  have hcast : ((k + 1 : ℕ) : ℝ) = (arcSteps start endP center cw : ℝ) := by
    rw [hk]
  rw [hcast, div_mul_cancel₀ _ hne]
  have hang : arcA0 start center +
      (arcA1 start endP center cw - arcA0 start center) =
      arcA1 start endP center cw := by
    ring
  rw [hang]

/-- Claim C1 (amended): strategy B emits exactly one arc directive; it
carries the direction, the corrected end coordinates — the end point
recomputed onto the circle of the start radius, so that the directive's
end is exactly as far from the center as the start is — and the I/J
center offsets measured from the start point; that corrected point,
with the programmed end's Z, is also the returned position. -/
theorem C1_strategy_B_amended (feed : Option ℝ) (n : ℕ) (start endP : Pos)
    (center : Center) (cw : Bool) :
    ∃ x y, (arc_to_g2g3 feed n start endP center cw).lines =
        [GLine.arcDir n cw x y (center.X - start.X) (center.Y - start.Y)] ∧
      hypot (x - center.X) (y - center.Y) = arcRadius start center ∧
      (arc_to_g2g3 feed n start endP center cw).pos = ⟨x, y, endP.Z⟩ := by
  refine ⟨center.X + arcRadius start center *
      Real.cos (arcA1 start endP center cw),
    center.Y + arcRadius start center *
      Real.sin (arcA1 start endP center cw), rfl, ?_, rfl⟩
  have h1 : center.X + arcRadius start center *
      Real.cos (arcA1 start endP center cw) - center.X =
      arcRadius start center * Real.cos (arcA1 start endP center cw) := by
    ring
  have h2 : center.Y + arcRadius start center *
      Real.sin (arcA1 start endP center cw) - center.Y =
      arcRadius start center * Real.sin (arcA1 start endP center cw) := by
    ring
  rw [h1, h2, hypot_mul_cos_sin _ _ (arcRadius_nonneg start center)]

/-- Counterexample to claim C1 as stated: for the arc from `(0,0)` to
`(3,0)` around center `(1,0)`, the single emitted directive carries the
corrected end coordinates `(2,0)` together with center offsets
`I=1, J=0` — not the dialect's original end coordinates `(3,0)` and not
a signed radius in place of center offsets. -/
theorem C1_counterexample :
    (arc_to_g2g3 (some 60) 1 ⟨0, 0, 0⟩ ⟨3, 0, 0⟩ ⟨1, 0⟩ true).lines =
      [GLine.arcDir 1 true 2 0 1 0] ∧ (2 : ℝ) ≠ (3 : ℝ) := by
  have hr : arcRadius ⟨0, 0, 0⟩ ⟨1, 0⟩ = 1 := by
    show hypot ((0 : ℝ) - 1) ((0 : ℝ) - 0) = 1
    rw [hypot]
    norm_num [Real.sqrt_one]
  have ha0 : arcA0 ⟨0, 0, 0⟩ ⟨1, 0⟩ = Real.pi := by
    show atan2 ((0 : ℝ) - 0) ((0 : ℝ) - 1) = Real.pi
    rw [show ((0 : ℝ) - 0) = 0 by norm_num, show ((0 : ℝ) - 1) = -1 by norm_num]
    exact atan2_zero_neg_one
  have ha1raw : arcA1raw ⟨3, 0, 0⟩ ⟨1, 0⟩ = 0 := by
    show atan2 ((0 : ℝ) - 0) ((3 : ℝ) - 1) = 0
    rw [show ((0 : ℝ) - 0) = 0 by norm_num, show ((3 : ℝ) - 1) = 2 by norm_num]
    exact atan2_zero_of_nonneg (by norm_num)
  have ha1 : arcA1 ⟨0, 0, 0⟩ ⟨3, 0, 0⟩ ⟨1, 0⟩ true = 0 := by
    simp only [arcA1, if_true]
    rw [ha0, ha1raw]
    rw [if_neg (not_le.mpr Real.pi_pos)]
  constructor
  · show [GLine.arcDir 1 true
      ((1 : ℝ) + arcRadius ⟨0, 0, 0⟩ ⟨1, 0⟩ *
        Real.cos (arcA1 ⟨0, 0, 0⟩ ⟨3, 0, 0⟩ ⟨1, 0⟩ true))
      ((0 : ℝ) + arcRadius ⟨0, 0, 0⟩ ⟨1, 0⟩ *
        Real.sin (arcA1 ⟨0, 0, 0⟩ ⟨3, 0, 0⟩ ⟨1, 0⟩ true))
      ((1 : ℝ) - 0) ((0 : ℝ) - 0)] = [GLine.arcDir 1 true 2 0 1 0]
    rw [hr, ha1, Real.cos_zero, Real.sin_zero]
    norm_num
  · norm_num

/-- Claim C2 (amended): the position returned by strategy B is the
corrected end point (on the circle of the start radius, with the
programmed end's Z); the position returned by strategy A is the
programmed end point when the corrective segment fires, and otherwise
the last computed chord point, which lies within 0.001 mm of the
programmed end in X and Y. -/
theorem C2_returned_position_amended (feed : Option ℝ) (n : ℕ)
    (start endP : Pos) (center : Center) (cw : Bool) :
    ((arc_to_g2g3 feed n start endP center cw).pos.Z = endP.Z ∧
     hypot ((arc_to_g2g3 feed n start endP center cw).pos.X - center.X)
       ((arc_to_g2g3 feed n start endP center cw).pos.Y - center.Y) =
       arcRadius start center) ∧
    ((linearize_arc feed n start endP center cw).pos = endP ∨
     ((linearize_arc feed n start endP center cw).pos =
        arcP start endP center cw (arcSteps start endP center cw) ∧
      |endP.X - (linearize_arc feed n start endP center cw).pos.X| ≤ 0.001 ∧
      |endP.Y - (linearize_arc feed n start endP center cw).pos.Y| ≤ 0.001)) := by
  constructor
  · refine ⟨rfl, ?_⟩
    show hypot (center.X + arcRadius start center *
        Real.cos (arcA1 start endP center cw) - center.X)
      (center.Y + arcRadius start center *
        Real.sin (arcA1 start endP center cw) - center.Y) =
      arcRadius start center
    have h1 : center.X + arcRadius start center *
        Real.cos (arcA1 start endP center cw) - center.X =
        arcRadius start center * Real.cos (arcA1 start endP center cw) := by
      ring
    have h2 : center.Y + arcRadius start center *
        Real.sin (arcA1 start endP center cw) - center.Y =
        arcRadius start center * Real.sin (arcA1 start endP center cw) := by
      ring
    rw [h1, h2, hypot_mul_cos_sin _ _ (arcRadius_nonneg start center)]
  · by_cases hcond : (0.001 < |endP.X - (arcP start endP center cw
        (arcSteps start endP center cw)).X| ∨
      0.001 < |endP.Y - (arcP start endP center cw
        (arcSteps start endP center cw)).Y|)
    · exact Or.inl (linearize_corr_pos feed n start endP center cw hcond)
    · right
      have hpos := linearize_nocorr_pos feed n start endP center cw hcond
      push_neg at hcond
      rw [hpos]
      exact ⟨rfl, hcond.1, hcond.2⟩

/-- Counterexample to claim C2 as stated: for the clockwise full circle
from `(1,0)` programmed to end at `(1.0005, 0)` around center `(0,0)`,
strategy A's last computed point is `(1,0)`; the deviation 0.0005 mm is
within the 0.001 mm tolerance, so no corrective segment fires and the
returned position is `(1,0)`, not the programmed end
point `(1.0005,0)`. -/
theorem C2_counterexample :
    (linearize_arc (some 60) 1 ⟨1, 0, 0⟩ ⟨1.0005, 0, 0⟩ ⟨0, 0⟩ true).pos =
      ⟨1, 0, 0⟩ ∧
    (linearize_arc (some 60) 1 ⟨1, 0, 0⟩ ⟨1.0005, 0, 0⟩ ⟨0, 0⟩ true).pos ≠
      ⟨1.0005, 0, 0⟩ := by
  have hr : arcRadius ⟨1, 0, 0⟩ ⟨0, 0⟩ = 1 := by
    show hypot ((1 : ℝ) - 0) ((0 : ℝ) - 0) = 1
    rw [hypot]
    norm_num [Real.sqrt_one]
  have ha0 : arcA0 ⟨1, 0, 0⟩ ⟨0, 0⟩ = 0 := by
    show atan2 ((0 : ℝ) - 0) ((1 : ℝ) - 0) = 0
    rw [show ((0 : ℝ) - 0) = 0 by norm_num, show ((1 : ℝ) - 0) = 1 by norm_num]
    exact atan2_zero_of_nonneg (by norm_num)
  have ha1raw : arcA1raw ⟨1.0005, 0, 0⟩ ⟨0, 0⟩ = 0 := by
    show atan2 ((0 : ℝ) - 0) ((1.0005 : ℝ) - 0) = 0
    rw [show ((0 : ℝ) - 0) = 0 by norm_num,
      show ((1.0005 : ℝ) - 0) = 1.0005 by norm_num]
    exact atan2_zero_of_nonneg (by norm_num)
  have ha1 : arcA1 ⟨1, 0, 0⟩ ⟨1.0005, 0, 0⟩ ⟨0, 0⟩ true = 0 - 2 * Real.pi := by
    simp only [arcA1, if_true]
    rw [ha0, ha1raw]
    rw [if_pos (le_refl (0 : ℝ))]
  have hp : arcP ⟨1, 0, 0⟩ ⟨1.0005, 0, 0⟩ ⟨0, 0⟩ true
      (arcSteps ⟨1, 0, 0⟩ ⟨1.0005, 0, 0⟩ ⟨0, 0⟩ true) = ⟨1, 0, 0⟩ := by
    rw [arcP_steps, hr, ha1]
    rw [show (0 : ℝ) - 2 * Real.pi = -(2 * Real.pi) by ring]
    rw [Real.cos_neg, Real.sin_neg, Real.cos_two_pi, Real.sin_two_pi]
    apply Pos.ext <;> norm_num
  have hcond : ¬ (0.001 < |(⟨1.0005, 0, 0⟩ : Pos).X -
        (arcP ⟨1, 0, 0⟩ ⟨1.0005, 0, 0⟩ ⟨0, 0⟩ true
          (arcSteps ⟨1, 0, 0⟩ ⟨1.0005, 0, 0⟩ ⟨0, 0⟩ true)).X| ∨
      0.001 < |(⟨1.0005, 0, 0⟩ : Pos).Y -
        (arcP ⟨1, 0, 0⟩ ⟨1.0005, 0, 0⟩ ⟨0, 0⟩ true
          (arcSteps ⟨1, 0, 0⟩ ⟨1.0005, 0, 0⟩ ⟨0, 0⟩ true)).Y|) := by
    rw [hp]
    push_neg
    constructor
    · show |(1.0005 : ℝ) - 1| ≤ 0.001
      rw [show (1.0005 : ℝ) - 1 = 0.0005 by norm_num,
        abs_of_nonneg (by norm_num : (0 : ℝ) ≤ 0.0005)]
      norm_num
    · show |(0 : ℝ) - 0| ≤ 0.001
      norm_num
  have hmain := linearize_nocorr_pos (some 60) 1 ⟨1, 0, 0⟩ ⟨1.0005, 0, 0⟩
    ⟨0, 0⟩ true hcond
  rw [hmain, hp]
  constructor
  · rfl
  · intro hcontra
    have : (1 : ℝ) = 1.0005 := congrArg Pos.X hcontra
    norm_num at this

end IselGcode
